import Mathlib

/-!
Verification of the Personal Health Data Aggregator.

Shallow embedding of the implementation in `src/tool/` (data loading and
normalization, merging, correlation analysis, JSON report generation) and of
the fail-fast loader variant in `src/data_loader.py`.  Python `datetime`
values are modelled over a proleptic-Gregorian calendar on `Int`; instants
are seconds relative to the UNIX epoch; IANA zones are modelled as offset
functions of the local wall-clock time (PEP 495 `fold = 0` behaviour).
-/

namespace PHA

/-- Calendar date, the embedding of a Python `datetime.date` value. -/
structure Date where
  year : Int
  month : Int
  day : Int
  deriving DecidableEq, Repr

/-- Gregorian leap-year test, as performed by the platform calendar that
`datetime` delegates to. -/
def isLeap (y : Int) : Bool :=
  y % 4 == 0 && (y % 100 != 0 || y % 400 == 0)

/-- Number of days of month `m` in year `y`. -/
def daysInMonth (y m : Int) : Int :=
  if m = 2 then (if isLeap y then 29 else 28)
  else if m = 4 ∨ m = 6 ∨ m = 9 ∨ m = 11 then 30
  else 31

/-- Validity of a calendar date, over the year range `datetime` accepts
(year 1 to 9999). -/
def dateValid (d : Date) : Bool :=
  decide (1 ≤ d.year) && decide (d.year ≤ 9999) &&
    decide (1 ≤ d.month) && decide (d.month ≤ 12) &&
    decide (1 ≤ d.day) && decide (d.day ≤ daysInMonth d.year d.month)

/-- Days since the UNIX epoch of a calendar date: the standard
proleptic-Gregorian `days_from_civil` conversion the platform performs when
`datetime` values are compared and converted. -/
def toDays (d : Date) : Int :=
  let y := d.year - (if d.month ≤ 2 then 1 else 0)
  let era := y / 400
  let yoe := y - era * 400
  let mp := (d.month + 9) % 12
  let doy := (153 * mp + 2) / 5 + d.day - 1
  let doe := 365 * yoe + yoe / 4 - yoe / 100 + doy
  era * 146097 + doe - 719468

/-- Calendar date from days since the UNIX epoch (`civil_from_days`). -/
def ofDays (z0 : Int) : Date :=
  let z := z0 + 719468
  let era := z / 146097
  let doe := z % 146097
  let yoe := (doe - doe / 1460 + doe / 36524 - doe / 146096) / 365
  let doy := doe - (365 * yoe + yoe / 4 - yoe / 100)
  let mp := (5 * doy + 2) / 153
  let d := doy - (153 * mp + 2) / 5 + 1
  let m := mp + (if mp < 10 then 3 else -9)
  ⟨yoe + era * 400 + (if m ≤ 2 then 1 else 0), m, d⟩

/-- Recovery of the year-of-era from the day-of-era in `civil_from_days`. -/
theorem yoe_recover (yoe doy doe : Int)
    (h1 : 0 ≤ yoe) (h2 : yoe ≤ 399) (h3 : 0 ≤ doy)
    (h4 : doy ≤ 364 ∨ (doy = 365 ∧ (yoe + 1) % 4 = 0 ∧
            ((yoe + 1) % 100 ≠ 0 ∨ (yoe + 1) % 400 = 0)))
    (hdoe : doe = 365 * yoe + yoe / 4 - yoe / 100 + doy) :
    (doe - doe / 1460 + doe / 36524 - doe / 146096) / 365 = yoe := by
  obtain ⟨c, s, r, hy, hc1, hc2, hs1, hs2, hr1, hr2⟩ :
      ∃ c s r, yoe = 100 * c + 4 * s + r ∧ 0 ≤ c ∧ c ≤ 3 ∧
        0 ≤ s ∧ s ≤ 24 ∧ 0 ≤ r ∧ r ≤ 3 :=
    ⟨yoe / 100, yoe % 100 / 4, yoe % 100 % 4, by omega, by omega, by omega,
      by omega, by omega, by omega, by omega⟩
  have hdoe2 : doe = 36524 * c + 1461 * s + 365 * r + doy := by omega
  have h5 : doy ≤ 364 ∨ (doy = 365 ∧ r = 3 ∧ (s ≠ 24 ∨ c = 3)) := by omega
  rcases eq_or_ne doe 146096 with heq | hne
  · subst heq; omega
  · have ht3 : doe / 146096 = 0 := by omega
    have ht2 : doe / 36524 = c := by omega
    have ht1 : doe / 1460 = 25 * c + s ∨
        (24 * c + s + 365 * r + doy ≥ 1460 ∧ doe / 1460 = 25 * c + s + 1) := by
      omega
    rcases ht1 with ht1 | ⟨hov, ht1⟩ <;> rw [ht1, ht2, ht3] <;> omega

/-- Core inversion of the civil-day conversion, stated over the shifted
(March-first) calendar: era, year-of-era, shifted month and day. -/
theorem civil_master (era yoe mp D : Int)
    (hyoe1 : 0 ≤ yoe) (hyoe2 : yoe ≤ 399)
    (hmp1 : 0 ≤ mp) (hmp2 : mp ≤ 11)
    (hD1 : 1 ≤ D)
    (hD2 : D ≤ 28 ∨ (D ≤ 30 ∧ (mp = 1 ∨ mp = 3 ∨ mp = 6 ∨ mp = 8))
          ∨ (D ≤ 31 ∧ (mp = 0 ∨ mp = 2 ∨ mp = 4 ∨ mp = 5 ∨ mp = 7 ∨ mp = 9 ∨ mp = 10))
          ∨ (D = 29 ∧ mp = 11 ∧ (yoe + 1) % 4 = 0 ∧
              ((yoe + 1) % 100 ≠ 0 ∨ (yoe + 1) % 400 = 0))) :
    ofDays (era * 146097 + (365 * yoe + yoe / 4 - yoe / 100 +
        ((153 * mp + 2) / 5 + D - 1)) - 719468)
      = ⟨yoe + era * 400 + (if 10 ≤ mp then 1 else 0),
          mp + (if mp < 10 then 3 else -9), D⟩ := by
  set doy := (153 * mp + 2) / 5 + D - 1 with hdoy
  set doe := 365 * yoe + yoe / 4 - yoe / 100 + doy with hdoe
  have hdoyb : 0 ≤ doy ∧ (doy ≤ 364 ∨ (doy = 365 ∧ (yoe + 1) % 4 = 0 ∧
      ((yoe + 1) % 100 ≠ 0 ∨ (yoe + 1) % 400 = 0))) := by
    interval_cases mp <;> omega
  have hdoeb : 0 ≤ doe ∧ doe ≤ 146096 := by omega
  have hyoe_rec : (doe - doe / 1460 + doe / 36524 - doe / 146096) / 365 = yoe :=
    yoe_recover yoe doy doe hyoe1 hyoe2 hdoyb.1 hdoyb.2 hdoe
  have hmp_rec : (5 * doy + 2) / 153 = mp := by
    interval_cases mp <;> omega
  simp only [ofDays]
  rw [show era * 146097 + doe - 719468 + 719468 = era * 146097 + doe by omega]
  rw [show (era * 146097 + doe) / 146097 = era by omega]
  rw [show (era * 146097 + doe) % 146097 = doe by omega]
  rw [hyoe_rec]
  rw [show doe - (365 * yoe + yoe / 4 - yoe / 100) = doy by omega]
  rw [hmp_rec]
  rw [show doy - (153 * mp + 2) / 5 + 1 = D by omega]
  rw [Date.mk.injEq]
  refine ⟨?_, rfl, rfl⟩
  split_ifs <;> omega

/-- Characterization of `isLeap` as a proposition. -/
theorem isLeap_iff (y : Int) :
    isLeap y = true ↔ (y % 4 = 0 ∧ (y % 100 ≠ 0 ∨ y % 400 = 0)) := by
  simp [isLeap]

/-- Round trip: converting a valid calendar date to epoch days and back
recovers the date. -/
theorem ofDays_toDays (dt : Date) (h : dateValid dt = true) :
    ofDays (toDays dt) = dt := by
  obtain ⟨Y, M, D⟩ := dt
  have hb : (1 ≤ Y ∧ Y ≤ 9999) ∧ (1 ≤ M ∧ M ≤ 12) ∧ (1 ≤ D ∧
      D ≤ daysInMonth Y M) := by
    simp only [dateValid, Bool.and_eq_true, decide_eq_true_eq] at h
    tauto
  obtain ⟨⟨hY1, hY2⟩, ⟨hM1, hM2⟩, ⟨hD1, hD2⟩⟩ := hb
  set y := Y - (if M ≤ 2 then 1 else 0) with hy
  set era := y / 400 with hera
  set yoe := y - era * 400 with hyoe
  have hyM : (M ≤ 2 ∧ y = Y - 1) ∨ (2 < M ∧ y = Y) := by
    by_cases hc : M ≤ 2
    · left; rw [hy, if_pos hc]; omega
    · right; rw [hy, if_neg hc]; omega
  have hyoe1 : 0 ≤ yoe := by omega
  have hyoe2 : yoe ≤ 399 := by omega
  have harg : toDays ⟨Y, M, D⟩ =
      era * 146097 + (365 * yoe + yoe / 4 - yoe / 100 +
        ((153 * ((M + 9) % 12) + 2) / 5 + D - 1)) - 719468 := by
    simp only [toDays]
  rw [harg]
  set mp := (M + 9) % 12 with hmp
  have hD2x : D ≤ 28 ∨ (D ≤ 30 ∧ (mp = 1 ∨ mp = 3 ∨ mp = 6 ∨ mp = 8))
      ∨ (D ≤ 31 ∧ (mp = 0 ∨ mp = 2 ∨ mp = 4 ∨ mp = 5 ∨ mp = 7 ∨ mp = 9 ∨ mp = 10))
      ∨ (D = 29 ∧ mp = 11 ∧ (yoe + 1) % 4 = 0 ∧
          ((yoe + 1) % 100 ≠ 0 ∨ (yoe + 1) % 400 = 0)) := by
    unfold daysInMonth at hD2
    rcases eq_or_ne M 2 with hM2e | hM2e
    · rw [if_pos hM2e] at hD2
      cases hlp : isLeap Y with
      | false => rw [hlp] at hD2; simp only [if_neg Bool.false_ne_true] at hD2; omega
      | true =>
        rw [hlp] at hD2; simp only [if_pos rfl] at hD2
        rw [isLeap_iff] at hlp
        omega
    · rw [if_neg hM2e] at hD2
      split_ifs at hD2 with h30
      · omega
      · omega
  rw [civil_master era yoe mp D hyoe1 hyoe2 (by omega) (by omega) hD1 hD2x]
  rw [Date.mk.injEq]
  refine ⟨?_, ?_, rfl⟩ <;> split_ifs <;> omega

/-- Naive wall-clock timestamp, the embedding of a Python naive `datetime`
at seconds precision. -/
structure NaiveDT where
  date : Date
  hour : Int
  minute : Int
  second : Int
  deriving DecidableEq, Repr

/-- Validity of a naive timestamp. -/
def dtValid (t : NaiveDT) : Bool :=
  dateValid t.date && decide (0 ≤ t.hour) && decide (t.hour ≤ 23) &&
    decide (0 ≤ t.minute) && decide (t.minute ≤ 59) &&
    decide (0 ≤ t.second) && decide (t.second ≤ 59)

/-- Seconds since the UNIX epoch of a naive timestamp read on the universal
clock. -/
def toSecs (t : NaiveDT) : Int :=
  toDays t.date * 86400 + t.hour * 3600 + t.minute * 60 + t.second

/-- Naive timestamp from seconds since the UNIX epoch. -/
def fromSecs (s : Int) : NaiveDT :=
  ⟨ofDays (s / 86400), s % 86400 / 3600, s % 86400 % 3600 / 60, s % 86400 % 60⟩

/-- Round trip: a valid naive timestamp is recovered from its epoch-second
count. -/
theorem fromSecs_toSecs (t : NaiveDT) (h : dtValid t = true) :
    fromSecs (toSecs t) = t := by
  obtain ⟨d, hh, mm, ss⟩ := t
  have hb : dateValid d = true ∧ (0 ≤ hh ∧ hh ≤ 23) ∧ (0 ≤ mm ∧ mm ≤ 59) ∧
      (0 ≤ ss ∧ ss ≤ 59) := by
    simp only [dtValid, Bool.and_eq_true, decide_eq_true_eq] at h
    tauto
  obtain ⟨hd, ⟨h1, h2⟩, ⟨h3, h4⟩, ⟨h5, h6⟩⟩ := hb
  simp only [fromSecs, toSecs]
  rw [NaiveDT.mk.injEq]
  refine ⟨?_, by omega, by omega, by omega⟩
  rw [show (toDays d * 86400 + hh * 3600 + mm * 60 + ss) / 86400 = toDays d by
    omega]
  exact ofDays_toDays d hd

/-- Digit test on a character: the `\d` character class of the `strptime`
pattern. -/
def isDig (c : Char) : Bool :=
  decide (48 ≤ c.toNat) && decide (c.toNat ≤ 57)

/-- Digit character of a value below ten. -/
def digChr (n : Nat) : Char := Char.ofNat (48 + n)

/-- Unfolding a digit character back to the digit it renders. -/
theorem digChr_eq (c : Char) (h : isDig c = true) : digChr (c.toNat - 48) = c := by
  simp only [isDig, Bool.and_eq_true, decide_eq_true_eq] at h
  unfold digChr
  rw [show 48 + (c.toNat - 48) = c.toNat by omega]
  exact Char.ofNat_toNat c

/-- Numeric value of two digit characters. -/
def n2 (a b : Char) : Int :=
  10 * ((a.toNat : Int) - 48) + ((b.toNat : Int) - 48)

/-- Numeric value of four digit characters. -/
def n4 (a b c d : Char) : Int :=
  1000 * ((a.toNat : Int) - 48) + 100 * ((b.toNat : Int) - 48) +
    10 * ((c.toNat : Int) - 48) + ((d.toNat : Int) - 48)

/-- Two-digit zero-padded decimal rendering. -/
def pad2 (n : Int) : List Char := [digChr (n.toNat / 10), digChr (n.toNat % 10)]

/-- Four-digit zero-padded decimal rendering. -/
def pad4 (n : Int) : List Char :=
  [digChr (n.toNat / 1000), digChr (n.toNat / 100 % 10),
    digChr (n.toNat / 10 % 10), digChr (n.toNat % 10)]

/-- Rendering inverts two-digit parsing. -/
theorem pad2_n2 (a b : Char) (ha : isDig a = true) (hb : isDig b = true) :
    pad2 (n2 a b) = [a, b] := by
  have ha2 := ha; have hb2 := hb
  simp only [isDig, Bool.and_eq_true, decide_eq_true_eq] at ha2 hb2
  simp only [pad2, n2]
  rw [show (10 * ((a.toNat : Int) - 48) + ((b.toNat : Int) - 48)).toNat / 10
      = a.toNat - 48 by omega]
  rw [show (10 * ((a.toNat : Int) - 48) + ((b.toNat : Int) - 48)).toNat % 10
      = b.toNat - 48 by omega]
  rw [digChr_eq a ha, digChr_eq b hb]

/-- Rendering inverts four-digit parsing. -/
theorem pad4_n4 (a b c d : Char) (ha : isDig a = true) (hb : isDig b = true)
    (hc : isDig c = true) (hd : isDig d = true) :
    pad4 (n4 a b c d) = [a, b, c, d] := by
  have ha2 := ha; have hb2 := hb; have hc2 := hc; have hd2 := hd
  simp only [isDig, Bool.and_eq_true, decide_eq_true_eq] at ha2 hb2 hc2 hd2
  simp only [pad4, n4]
  rw [show (1000 * ((a.toNat : Int) - 48) + 100 * ((b.toNat : Int) - 48) +
      10 * ((c.toNat : Int) - 48) + ((d.toNat : Int) - 48)).toNat / 1000
      = a.toNat - 48 by omega]
  rw [show (1000 * ((a.toNat : Int) - 48) + 100 * ((b.toNat : Int) - 48) +
      10 * ((c.toNat : Int) - 48) + ((d.toNat : Int) - 48)).toNat / 100 % 10
      = b.toNat - 48 by omega]
  rw [show (1000 * ((a.toNat : Int) - 48) + 100 * ((b.toNat : Int) - 48) +
      10 * ((c.toNat : Int) - 48) + ((d.toNat : Int) - 48)).toNat / 10 % 10
      = c.toNat - 48 by omega]
  rw [show (1000 * ((a.toNat : Int) - 48) + 100 * ((b.toNat : Int) - 48) +
      10 * ((c.toNat : Int) - 48) + ((d.toNat : Int) - 48)).toNat % 10
      = d.toNat - 48 by omega]
  rw [digChr_eq a ha, digChr_eq b hb, digChr_eq c hc, digChr_eq d hd]

/-- Maximal digit prefix of a character list, with the remainder. -/
def takeDigits : List Char → List Char × List Char
  | [] => ([], [])
  | c :: cs =>
    if isDig c then (c :: (takeDigits cs).1, (takeDigits cs).2)
    else ([], c :: cs)

/-- The `\s` character class of a CPython `str` pattern: the characters a
literal blank in the `strptime` format matches (one or more occurrences). -/
def isPySpace (c : Char) : Bool :=
  decide ((9 ≤ c.toNat ∧ c.toNat ≤ 13) ∨ (28 ≤ c.toNat ∧ c.toNat ≤ 32) ∨
    c.toNat = 133 ∨ c.toNat = 160 ∨ c.toNat = 5760 ∨
    (8192 ≤ c.toNat ∧ c.toNat ≤ 8202) ∨ c.toNat = 8232 ∨ c.toNat = 8233 ∨
    c.toNat = 8239 ∨ c.toNat = 8287 ∨ c.toNat = 12288)

/-- Maximal whitespace prefix of a character list, with the remainder. -/
def takeSpaces : List Char → List Char × List Char
  | [] => ([], [])
  | c :: cs =>
    if isPySpace c then (c :: (takeSpaces cs).1, (takeSpaces cs).2)
    else ([], c :: cs)

/-- Numeric value of a digit run. -/
def digitsVal (l : List Char) : Int :=
  l.foldl (fun acc c => 10 * acc + ((c.toNat : Int) - 48)) 0

/-- The `%Y` directive of CPython `_strptime`: exactly four digits. -/
def yearField (l : List Char) : Option (Int × List Char) :=
  match takeDigits l with
  | (ds, rest) => if ds.length = 4 then some (digitsVal ds, rest) else none

/-- A one- or two-digit numeric directive of CPython `_strptime` whose
alternation accepts exactly the values between `lo` and `hi`: the `%m`
pattern is `1[0-2]|0[1-9]|[1-9]`, the digit alternatives of `%d` are
`3[0-1]|[1-2]\d|0[1-9]|[1-9]`, `%H` is `2[0-3]|[0-1]\d|\d`, `%M` is
`[0-5]\d|\d` and `%S` is `6[0-1]|[0-5]\d|\d`.  Since the following format
token is a non-digit literal or the end of the string, the engine matches
exactly the maximal digit run, and succeeds iff its length is one or two
and its value lies in the directive's range. -/
def numField (lo hi : Int) (l : List Char) : Option (Int × List Char) :=
  match takeDigits l with
  | (ds, rest) =>
    if (ds.length = 1 || ds.length = 2) && decide (lo ≤ digitsVal ds) &&
        decide (digitsVal ds ≤ hi) then
      some (digitsVal ds, rest)
    else none

/-- The `%d` directive: its pattern also has the blank-padded alternative
of a single blank followed by a nonzero digit. -/
def dayField (l : List Char) : Option (Int × List Char) :=
  match l with
  | ' ' :: c :: rest =>
    if isDig c && decide (c.toNat ≠ 48) then
      some (((c.toNat : Int) - 48), rest)
    else none
  | _ => numField 1 31 l

/-- A literal non-whitespace character of the format, matched exactly. -/
def litChar (c : Char) : List Char → Option (List Char)
  | [] => none
  | x :: rest => if x = c then some rest else none

/-- A literal blank of the format: one or more whitespace characters. -/
def wsField (l : List Char) : Option (List Char) :=
  match takeSpaces l with
  | ([], _) => none
  | (_, rest) => some rest

/-- Pattern phase of the embedded `strptime` on the fixed
`%Y-%m-%d %H:%M:%S` format, with the field shapes of the CPython
`_strptime` regexes: a four-digit year; month, day, hour, minute and second
fields of one or two digits (so non-zero-padded timestamps are accepted,
and a blank-padded single-digit day as well); a literal blank matching one
or more whitespace characters; and nothing left over, or the engine
reports unconverted data. -/
def parseTsCore (s : String) : Option NaiveDT :=
  match yearField s.data with
  | none => none
  | some (y, r1) =>
    match litChar '-' r1 with
    | none => none
    | some r2 =>
      match numField 1 12 r2 with
      | none => none
      | some (mo, r3) =>
        match litChar '-' r3 with
        | none => none
        | some r4 =>
          match dayField r4 with
          | none => none
          | some (d, r5) =>
            match wsField r5 with
            | none => none
            | some r6 =>
              match numField 0 23 r6 with
              | none => none
              | some (h, r7) =>
                match litChar ':' r7 with
                | none => none
                | some r8 =>
                  match numField 0 59 r8 with
                  | none => none
                  | some (mi, r9) =>
                    match litChar ':' r9 with
                    | none => none
                    | some r10 =>
                      match numField 0 61 r10 with
                      | none => none
                      | some (sec, r11) =>
                        if r11.isEmpty then some ⟨⟨y, mo, d⟩, h, mi, sec⟩
                        else none

/-- Embedding of `datetime.strptime(x, the fixed wall-clock format)`: the
pattern phase above, followed by the `datetime` constructor checks on the
calendar date and the clock fields (which reject the leap seconds the `%S`
pattern tolerates). -/
def parseTs (s : String) : Option NaiveDT :=
  match parseTsCore s with
  | none => none
  | some t => if dtValid t then some t else none

/-- Rendering of a naive timestamp in the `YYYY-MM-DD HH:MM:SS` wall-clock
format. -/
def formatTs (t : NaiveDT) : String :=
  ⟨pad4 t.date.year ++ '-' :: pad2 t.date.month ++ '-' :: pad2 t.date.day ++
    ' ' :: pad2 t.hour ++ ':' :: pad2 t.minute ++ ':' :: pad2 t.second⟩

/-- Rendering of a calendar date in the `YYYY-MM-DD` format, the embedding of
`str` on a Python `date`. -/
def formatDate (d : Date) : String :=
  ⟨pad4 d.year ++ '-' :: pad2 d.month ++ '-' :: pad2 d.day⟩

/-- Parsing a wall-clock timestamp succeeds only on valid timestamps: the
constructor checks run on every accepted parse.  (The converse textual
round trip fails for the non-zero-padded timestamps `strptime` accepts:
rendering the parse of `2023-10-01 8:30:00` yields the distinct canonical
string `2023-10-01 08:30:00`.) -/
theorem parseTs_valid (s : String) (t : NaiveDT) (h : parseTs s = some t) :
    dtValid t = true := by
  unfold parseTs at h
  split at h
  · exact absurd h (by simp)
  next t0 heq =>
    split_ifs at h with hval
    obtain rfl : t0 = t := Option.some.inj h
    exact hval

/-- Check of the offset suffix shapes the embedded `fromisoformat` accepts:
nothing, or a sign followed by `HH:MM`. -/
def offsetOk : List Char → Bool
  | [] => true
  | [sg, a, b, ':', c, d] =>
    (sg == '+' || sg == '-') && isDig a && isDig b && isDig c && isDig d &&
      decide (n2 a b ≤ 23) && decide (n2 c d ≤ 59)
  | _ => false

/-- Embedding of `datetime.fromisoformat` on the shapes the sleep loader
feeds it: `YYYY-MM-DDTHH:MM:SS`, optionally followed by a numeric offset
suffix.  The result keeps the wall-clock component of the parsed value,
which is what the `date()` call made on it reads. -/
def parseIso (s : String) : Option NaiveDT :=
  match s.data with
  | y1 :: y2 :: y3 :: y4 :: '-' :: mo1 :: mo2 :: '-' :: d1 :: d2 :: 'T' ::
      h1 :: h2 :: ':' :: mi1 :: mi2 :: ':' :: s1 :: s2 :: rest =>
    if isDig y1 && isDig y2 && isDig y3 && isDig y4 && isDig mo1 && isDig mo2 &&
        isDig d1 && isDig d2 && isDig h1 && isDig h2 && isDig mi1 && isDig mi2 &&
        isDig s1 && isDig s2 && offsetOk rest then
      let t : NaiveDT :=
        ⟨⟨n4 y1 y2 y3 y4, n2 mo1 mo2, n2 d1 d2⟩, n2 h1 h2, n2 mi1 mi2, n2 s1 s2⟩
      if dtValid t then some t else none
    else none
  | _ => none

/-- Character-level body of the designator replacement: every `Z` becomes
an explicit zero offset. -/
def replZchars : List Char → List Char
  | [] => []
  | 'Z' :: rest => '+' :: '0' :: '0' :: ':' :: '0' :: '0' :: replZchars rest
  | c :: rest => c :: replZchars rest

/-- The replacement the sleep loader performs before parsing
(`replace` of the one-character designator pattern by the zero offset). -/
def replZ (s : String) : String := ⟨replZchars s.data⟩

/-- IANA timezone, modelled by its UTC-offset function (seconds east of UTC)
of local wall-clock time, with PEP 495 `fold = 0` disambiguation. -/
structure Zone where
  offAt : NaiveDT → Int

/-- Zone database: the host IANA lookup performed by `ZoneInfo(name)`, with
`none` for the unknown-identifier failure. -/
def ZoneDB : Type := String → Option Zone

/-- Epoch day of the n-th Sunday (1-based) of the given month: 1970-01-01
was a Thursday, so epoch day `z` has day-of-week `(z + 4) % 7` with Sunday
numbered zero. -/
def nthSundayDay (y m n : Int) : Int :=
  let first := toDays ⟨y, m, 1⟩
  first + (7 - (first + 4) % 7) % 7 + 7 * (n - 1)

/-- US 2007 daylight-saving rule: daylight time from the second Sunday of
March 03:00 wall clock (PEP 495 `fold = 0` reads the skipped hour on the
standard offset) until the first Sunday of November 02:00 wall clock
(`fold = 0` reads the repeated hour on the daylight offset). -/
def usDstActive (t : NaiveDT) : Bool :=
  let z := toDays t.date
  let sod := t.hour * 3600 + t.minute * 60 + t.second
  let dstStart := nthSundayDay t.date.year 3 2
  let dstStop := nthSundayDay t.date.year 11 1
  (decide (dstStart < z) || (z == dstStart && decide (3 * 3600 ≤ sod))) &&
    (decide (z < dstStop) || (z == dstStop && decide (sod < 2 * 3600)))

/-- America/Los_Angeles: standard offset UTC-8, daylight offset UTC-7. -/
def zoneLA : Zone :=
  ⟨fun t => if usDstActive t then -7 * 3600 else -8 * 3600⟩

/-- The UTC zone: fixed zero offset. -/
def zoneUTC : Zone := ⟨fun _ => 0⟩

/-- Concrete zone database used by the worked examples. -/
def exampleDB : ZoneDB := fun nm =>
  if nm = "America/Los_Angeles" then some zoneLA
  else if nm = "UTC" then some zoneUTC
  else none

/-- Normalized sleep record: the `SleepRecord` dataclass of
`src/tool/models.py`. -/
structure SleepRecord where
  date_utc : Date
  sleep_start_utc : NaiveDT
  sleep_end_utc : NaiveDT
  duration_hours : Rat
  quality_score : Int
  deriving DecidableEq, Repr

/-- Normalized workout record: the `WorkoutRecord` dataclass of
`src/tool/models.py`. -/
structure WorkoutRecord where
  id : String
  timestamp_utc : NaiveDT
  date_utc : Date
  original_timestamp : String
  original_timezone : String
  workout_type : String
  duration_min : Int
  calories : Int
  crossed_day_boundary : Bool
  deriving DecidableEq, Repr

/-- Raw sleep entry as decoded from JSON; `none` marks an absent key. -/
structure RawSleepEntry where
  sleep_start : Option String
  sleep_end : Option String
  duration_hours : Option Rat
  quality_score : Option Int
  deriving DecidableEq, Repr

/-- Raw workout entry as decoded from JSON; `none` marks an absent key.  The
`wtype` field embeds the JSON key named `type`; the scalar coercions
`str(...)` and `int(...)` are taken as applied during decoding. -/
structure RawWorkoutEntry where
  id : Option String
  timestamp : Option String
  tz : Option String
  wtype : Option String
  duration_min : Option Int
  calories : Option Int
  deriving DecidableEq, Repr

/-- Required workout fields in the sorted order `sorted(...)` renders. -/
def workoutRequired : List String :=
  ["calories", "duration_min", "id", "timestamp", "type", "tz"]

/-- Required sleep fields in the sorted order `sorted(...)` renders. -/
def sleepRequired : List String :=
  ["duration_hours", "quality_score", "sleep_end", "sleep_start"]

/-- Key-presence test on a raw workout entry. -/
def wHas (e : RawWorkoutEntry) (f : String) : Bool :=
  if f = "calories" then e.calories.isSome
  else if f = "duration_min" then e.duration_min.isSome
  else if f = "id" then e.id.isSome
  else if f = "timestamp" then e.timestamp.isSome
  else if f = "type" then e.wtype.isSome
  else if f = "tz" then e.tz.isSome
  else false

/-- Key-presence test on a raw sleep entry. -/
def sHas (e : RawSleepEntry) (f : String) : Bool :=
  if f = "duration_hours" then e.duration_hours.isSome
  else if f = "quality_score" then e.quality_score.isSome
  else if f = "sleep_end" then e.sleep_end.isSome
  else if f = "sleep_start" then e.sleep_start.isSome
  else false

/-- Missing required workout fields in sorted order: the embedding of
`WORKOUT_REQUIRED_FIELDS - set(entry.keys())` rendered by `sorted`. -/
def missingWorkout (e : RawWorkoutEntry) : List String :=
  workoutRequired.filter (fun f => ! wHas e f)

/-- Missing required sleep fields in sorted order. -/
def missingSleep (e : RawSleepEntry) : List String :=
  sleepRequired.filter (fun f => ! sHas e f)

/-- Single-quote character as a string, for message rendering. -/
def sq : String := String.singleton (Char.ofNat 39)

/-- Empty string, the placeholder read for a field already proven present. -/
def vacant : String := ""

/-- Message of `validate_workout_entry` for missing fields. -/
def missingWorkoutMsg (idx : Nat) (missing : List String) : String :=
  "Workout record " ++ toString idx ++ ": Missing required fields: " ++
    String.intercalate (", ") missing ++ ". Required: " ++
    String.intercalate (", ") workoutRequired

/-- Message of `validate_sleep_entry` for missing fields. -/
def missingSleepMsg (idx : Nat) (missing : List String) : String :=
  "Sleep record " ++ toString idx ++ ": Missing required fields: " ++
    String.intercalate (", ") missing ++ ". Required: " ++
    String.intercalate (", ") sleepRequired

/-- Embedding of `validate_workout_entry` of `src/tool/data_loader.py`:
`some msg` is the message of the raised `ValueError`. -/
def validate_workout_entry (e : RawWorkoutEntry) (idx : Nat) : Option String :=
  if (missingWorkout e).isEmpty then none
  else some (missingWorkoutMsg idx (missingWorkout e))

/-- Embedding of `validate_sleep_entry` of `src/tool/data_loader.py`. -/
def validate_sleep_entry (e : RawSleepEntry) (idx : Nat) : Option String :=
  if (missingSleep e).isEmpty then none
  else some (missingSleepMsg idx (missingSleep e))

/-- Timestamp-format failure message (the embedded message omits the
platform exception detail interpolated after it). -/
def msgBadTs : String := "Invalid timestamp format."

/-- Unknown-timezone failure message of the tool loader. -/
def msgBadTz (tzs : String) : String :=
  "Invalid timezone " ++ sq ++ tzs ++ sq ++ ". Use IANA timezone identifiers."

/-- Range failure message for workout duration. -/
def msgBadDur (dm : Int) : String :=
  "Invalid numeric values. Duration must be between 0 and 1440 minutes, got "
    ++ toString dm

/-- Range failure message for workout calories. -/
def msgBadCal (cal : Int) : String :=
  "Invalid numeric values. Calories must be non-negative, got " ++ toString cal

/-- Range failure message for sleep duration. -/
def msgBadHours (dh : Rat) : String :=
  "Invalid numeric values. Duration must be between 0 and 24 hours, got "
    ++ toString dh

/-- Range failure message for sleep quality score. -/
def msgBadQuality (qs : Int) : String :=
  "Invalid numeric values. Quality score must be between 0 and 100, got "
    ++ toString qs

/-- Per-entry pipeline of `load_sleep_data` of `src/tool/data_loader.py`:
validate required fields, parse the ISO timestamps after `Z` replacement,
validate the numeric ranges, and build the record attributed to the
wake-up date. -/
def processSleepEntry (idx : Nat) (e : RawSleepEntry) :
    Except String SleepRecord :=
  match validate_sleep_entry e idx with
  | some msg => .error msg
  | none =>
    match parseIso (replZ (e.sleep_start.getD vacant)) with
    | none => .error msgBadTs
    | some sleep_start =>
      match parseIso (replZ (e.sleep_end.getD vacant)) with
      | none => .error msgBadTs
      | some sleep_end =>
        if e.duration_hours.getD 0 < 0 ∨ e.duration_hours.getD 0 > 24 then
          .error (msgBadHours (e.duration_hours.getD 0))
        else if e.quality_score.getD 0 < 0 ∨ e.quality_score.getD 0 > 100 then
          .error (msgBadQuality (e.quality_score.getD 0))
        else .ok ⟨sleep_end.date, sleep_start, sleep_end,
          e.duration_hours.getD 0, e.quality_score.getD 0⟩

/-- Python float value as `float(entry['duration_hours'])` can produce it:
an ordinary value (carried exactly as a rational), one of the two
infinities, or NaN — which a `nan` string or a JSON `NaN` literal yields,
and which `Option Rat` cannot represent.  The sleep loader only compares
and stores the value, and IEEE 754 comparisons on ordinary values agree
with the rational order. -/
inductive PyFloat
  | nan
  | pinf
  | ninf
  | fin (q : Rat)
  deriving DecidableEq, Repr

/-- IEEE 754 less-than on floats: every comparison with NaN is false. -/
def PyFloat.lt : PyFloat → PyFloat → Bool
  | .nan, _ => false
  | _, .nan => false
  | .ninf, .ninf => false
  | .ninf, _ => true
  | _, .ninf => false
  | .pinf, _ => false
  | _, .pinf => true
  | .fin a, .fin b => decide (a < b)

/-- IEEE 754 less-or-equal on floats: every comparison with NaN is false. -/
def PyFloat.le : PyFloat → PyFloat → Bool
  | .nan, _ => false
  | _, .nan => false
  | a, b => PyFloat.lt a b || a == b

/-- Rendering of a float in the range message (`nan` for NaN, as Python
string formatting shows it; ordinary values are rendered through the
rational carrier). -/
def PyFloat.render : PyFloat → String
  | .nan => "nan"
  | .pinf => "inf"
  | .ninf => "-inf"
  | .fin q => toString q

/-- Raw sleep entry with the duration as the float the source reads it to
be: the float-faithful re-embedding of the decoded entry, which can carry
the NaN and infinite values `RawSleepEntry` abstracts away. -/
structure RawSleepEntryPy where
  sleep_start : Option String
  sleep_end : Option String
  duration_hours : Option PyFloat
  quality_score : Option Int
  deriving DecidableEq, Repr

/-- Normalized sleep record carrying the float duration as stored. -/
structure SleepRecordPy where
  date_utc : Date
  sleep_start_utc : NaiveDT
  sleep_end_utc : NaiveDT
  duration_hours : PyFloat
  quality_score : Int
  deriving DecidableEq, Repr

/-- Key-presence test on a float-faithful raw sleep entry. -/
def sHasPy (e : RawSleepEntryPy) (f : String) : Bool :=
  if f = "duration_hours" then e.duration_hours.isSome
  else if f = "quality_score" then e.quality_score.isSome
  else if f = "sleep_end" then e.sleep_end.isSome
  else if f = "sleep_start" then e.sleep_start.isSome
  else false

/-- Missing required fields of a float-faithful sleep entry, sorted. -/
def missingSleepPy (e : RawSleepEntryPy) : List String :=
  sleepRequired.filter (fun f => ! sHasPy e f)

/-- `validate_sleep_entry` on a float-faithful sleep entry. -/
def validate_sleep_entry_py (e : RawSleepEntryPy) (idx : Nat) : Option String :=
  if (missingSleepPy e).isEmpty then none
  else some (missingSleepMsg idx (missingSleepPy e))

/-- Range failure message for a float sleep duration. -/
def msgBadHoursPy (dh : PyFloat) : String :=
  "Invalid numeric values. Duration must be between 0 and 24 hours, got "
    ++ PyFloat.render dh

/-- Per-entry pipeline of `load_sleep_data` with the duration as the float
the source compares: the guard of `src/tool/data_loader.py` line 88 is
`duration_hours < 0 or duration_hours > 24` under IEEE 754 comparison, so
both halves are false on NaN and the entry is accepted with the NaN
duration stored in the record. -/
def processSleepEntryPy (idx : Nat) (e : RawSleepEntryPy) :
    Except String SleepRecordPy :=
  match validate_sleep_entry_py e idx with
  | some msg => .error msg
  | none =>
    match parseIso (replZ (e.sleep_start.getD vacant)) with
    | none => .error msgBadTs
    | some sleep_start =>
      match parseIso (replZ (e.sleep_end.getD vacant)) with
      | none => .error msgBadTs
      | some sleep_end =>
        if PyFloat.lt (e.duration_hours.getD (PyFloat.fin 0)) (PyFloat.fin 0) ||
            PyFloat.lt (PyFloat.fin 24) (e.duration_hours.getD (PyFloat.fin 0))
          then
          .error (msgBadHoursPy (e.duration_hours.getD (PyFloat.fin 0)))
        else if e.quality_score.getD 0 < 0 ∨ e.quality_score.getD 0 > 100 then
          .error (msgBadQuality (e.quality_score.getD 0))
        else .ok ⟨sleep_end.date, sleep_start, sleep_end,
          e.duration_hours.getD (PyFloat.fin 0), e.quality_score.getD 0⟩

/-- Per-entry pipeline of `load_workout_data` of `src/tool/data_loader.py`:
validate required fields, resolve the zone, parse the wall-clock timestamp,
convert to the universal clock, flag the day-boundary crossing, validate
the numeric ranges, and build the record attributed to the universal
date. -/
def processWorkoutEntry (db : ZoneDB) (idx : Nat) (e : RawWorkoutEntry) :
    Except String WorkoutRecord :=
  match validate_workout_entry e idx with
  | some msg => .error msg
  | none =>
    match db (e.tz.getD vacant) with
    | none => .error (msgBadTz (e.tz.getD vacant))
    | some z =>
      match parseTs (e.timestamp.getD vacant) with
      | none => .error msgBadTs
      | some local_dt =>
        if e.duration_min.getD 0 < 0 ∨ e.duration_min.getD 0 > 1440 then
          .error (msgBadDur (e.duration_min.getD 0))
        else if e.calories.getD 0 < 0 then .error (msgBadCal (e.calories.getD 0))
        else .ok ⟨e.id.getD vacant,
          fromSecs (toSecs local_dt - z.offAt local_dt),
          (fromSecs (toSecs local_dt - z.offAt local_dt)).date,
          e.timestamp.getD vacant, e.tz.getD vacant,
          e.wtype.getD vacant, e.duration_min.getD 0, e.calories.getD 0,
          decide (local_dt.date ≠
            (fromSecs (toSecs local_dt - z.offAt local_dt)).date)⟩

/-- Per-entry pipeline of the fail-fast `load_workout_data` of
`src/data_loader.py`: the same validation and normalization sequence, with
per-record messages carrying the record index. -/
def processWorkoutEntryStrict (db : ZoneDB) (idx : Nat) (e : RawWorkoutEntry) :
    Except String WorkoutRecord :=
  match validate_workout_entry e idx with
  | some msg => .error msg
  | none =>
    match db (e.tz.getD vacant) with
    | none => .error ("Workout record " ++ toString idx ++ ": " ++
        msgBadTz (e.tz.getD vacant))
    | some z =>
      match parseTs (e.timestamp.getD vacant) with
      | none => .error ("Workout record " ++ toString idx ++ ": " ++ msgBadTs)
      | some local_dt =>
        if e.duration_min.getD 0 < 0 ∨ e.duration_min.getD 0 > 1440 then
          .error ("Workout record " ++ toString idx ++ ": " ++
            msgBadDur (e.duration_min.getD 0))
        else if e.calories.getD 0 < 0 then
          .error ("Workout record " ++ toString idx ++ ": " ++
            msgBadCal (e.calories.getD 0))
        else .ok ⟨e.id.getD vacant,
          fromSecs (toSecs local_dt - z.offAt local_dt),
          (fromSecs (toSecs local_dt - z.offAt local_dt)).date,
          e.timestamp.getD vacant, e.tz.getD vacant,
          e.wtype.getD vacant, e.duration_min.getD 0, e.calories.getD 0,
          decide (local_dt.date ≠
            (fromSecs (toSecs local_dt - z.offAt local_dt)).date)⟩

/-- Indexed loop of the skip-and-warn workout loader. -/
def loadWorkoutToolAux (db : ZoneDB) :
    Nat → List RawWorkoutEntry → List WorkoutRecord × List (Nat × String)
  | _, [] => ([], [])
  | idx, e :: es =>
    match processWorkoutEntry db idx e with
    | .ok r => (r :: (loadWorkoutToolAux db (idx + 1) es).1,
        (loadWorkoutToolAux db (idx + 1) es).2)
    | .error m => ((loadWorkoutToolAux db (idx + 1) es).1,
        (idx, m) :: (loadWorkoutToolAux db (idx + 1) es).2)

/-- Skip-and-warn `load_workout_data` of `src/tool/data_loader.py`: the
accepted records in input order, plus the `(index, reason)` pairs of the
skipped entries that the loader warns about. -/
def load_workout_data (db : ZoneDB) (entries : List RawWorkoutEntry) :
    List WorkoutRecord × List (Nat × String) :=
  loadWorkoutToolAux db 0 entries

/-- Indexed loop of the fail-fast workout loader. -/
def loadWorkoutStrictAux (db : ZoneDB) :
    Nat → List RawWorkoutEntry → Except String (List WorkoutRecord)
  | _, [] => .ok []
  | idx, e :: es =>
    match processWorkoutEntryStrict db idx e with
    | .error m =>
      .error ("Error processing workout record " ++ toString idx ++ ": " ++ m)
    | .ok r =>
      match loadWorkoutStrictAux db (idx + 1) es with
      | .error m => .error m
      | .ok rs => .ok (r :: rs)

/-- Fail-fast `load_workout_data` of `src/data_loader.py`: the first invalid
record aborts the load with a wrapped error naming the record index. -/
def load_workout_data_strict (db : ZoneDB) (entries : List RawWorkoutEntry) :
    Except String (List WorkoutRecord) :=
  loadWorkoutStrictAux db 0 entries

/-- Indexed loop of the skip-and-warn sleep loader. -/
def loadSleepAux :
    Nat → List RawSleepEntry → List SleepRecord × List (Nat × String)
  | _, [] => ([], [])
  | idx, e :: es =>
    match processSleepEntry idx e with
    | .ok r => (r :: (loadSleepAux (idx + 1) es).1,
        (loadSleepAux (idx + 1) es).2)
    | .error m => ((loadSleepAux (idx + 1) es).1,
        (idx, m) :: (loadSleepAux (idx + 1) es).2)

/-- Skip-and-warn `load_sleep_data` of `src/tool/data_loader.py`. -/
def load_sleep_data (entries : List RawSleepEntry) :
    List SleepRecord × List (Nat × String) :=
  loadSleepAux 0 entries

/-- Merged daily health data: the `DailyAggregate` dataclass of
`src/tool/models.py`, fields at their constructor defaults until set. -/
structure DailyAggregate where
  date_utc : Option Date
  sleep_hours : Option Rat
  sleep_quality : Option Int
  workouts : List WorkoutRecord
  total_calories : Int
  total_workout_minutes : Int
  deriving DecidableEq, Repr

/-- Fresh aggregate produced by the `defaultdict` factory
`DailyAggregate(date_utc=None)`. -/
def emptyAgg : DailyAggregate := ⟨none, none, none, [], 0, 0⟩

/-- Read of `daily_data[day]` on the insertion-ordered mapping. -/
def aggGet : List (Date × DailyAggregate) → Date → DailyAggregate
  | [], _ => emptyAgg
  | p :: ps, day => if p.1 = day then p.2 else aggGet ps day

/-- Write-back into the insertion-ordered mapping: update in place when the
key exists, append the way `defaultdict` materializes a fresh key. -/
def aggSet : List (Date × DailyAggregate) → Date → DailyAggregate →
    List (Date × DailyAggregate)
  | [], day, v => [(day, v)]
  | p :: ps, day, v =>
    if p.1 = day then (day, v) :: ps else p :: aggSet ps day v

/-- Sleep pass body of `merge_by_day`: set the sleep summary of the day
(last write wins). -/
def mergeSleepStep (m : List (Date × DailyAggregate)) (s : SleepRecord) :
    List (Date × DailyAggregate) :=
  let day := s.date_utc
  let a := aggGet m day
  aggSet m day
    { a with
      date_utc := some day
      sleep_hours := some s.duration_hours
      sleep_quality := some s.quality_score }

/-- Workout pass body of `merge_by_day`: append the workout and add to the
running totals. -/
def mergeWorkoutStep (m : List (Date × DailyAggregate)) (w : WorkoutRecord) :
    List (Date × DailyAggregate) :=
  let day := w.date_utc
  let a := aggGet m day
  aggSet m day
    { a with
      date_utc := some day
      workouts := a.workouts ++ [w]
      total_calories := a.total_calories + w.calories
      total_workout_minutes := a.total_workout_minutes + w.duration_min }

/-- Embedding of `merge_by_day` of `src/tool/merger.py`; the mapping is the
insertion-ordered association list the Python dict realizes. -/
def merge_by_day (sleeps : List SleepRecord) (workouts : List WorkoutRecord) :
    List (Date × DailyAggregate) :=
  workouts.foldl mergeWorkoutStep (sleeps.foldl mergeSleepStep [])

/-- Result dictionary of `calculate_correlations`: an optional field is
present exactly when the corresponding key is in the Python dict. -/
structure CorrResults where
  avg_calories_low_sleep : Option Rat
  low_sleep_day_count : Option Nat
  avg_calories_good_sleep : Option Rat
  good_sleep_day_count : Option Nat
  workout_rate_low_sleep : Option Rat
  workout_rate_good_sleep : Option Rat
  deriving DecidableEq, Repr

/-- The empty result dictionary. -/
def emptyCorr : CorrResults := ⟨none, none, none, none, none, none⟩

/-- Guard of the low-sleep bucket:
`d.sleep_hours is not None and d.sleep_hours < 6 and d.total_calories > 0`. -/
def isLowSleepActive (d : DailyAggregate) : Bool :=
  match d.sleep_hours with
  | some h => decide (h < 6) && decide (d.total_calories > 0)
  | none => false

/-- Guard of the good-sleep bucket:
`d.sleep_hours is not None and d.sleep_hours >= 7 and d.total_calories > 0`. -/
def isGoodSleepActive (d : DailyAggregate) : Bool :=
  match d.sleep_hours with
  | some h => decide (7 ≤ h) && decide (d.total_calories > 0)
  | none => false

/-- Mean of the calorie totals of a list of aggregates (`statistics.mean`)
as an exact rational. -/
def meanCalories (l : List DailyAggregate) : Rat :=
  (l.map (fun d => (d.total_calories : Rat))).sum / (l.length : Rat)

/-- Embedding of `calculate_correlations` of `src/tool/merger.py`. -/
def calculate_correlations (m : List (Date × DailyAggregate)) : CorrResults :=
  let vals := m.map Prod.snd
  let lowDays := vals.filter isLowSleepActive
  let goodDays := vals.filter isGoodSleepActive
  let r1 : CorrResults :=
    if lowDays.isEmpty then emptyCorr
    else { emptyCorr with
      avg_calories_low_sleep := some (meanCalories lowDays),
      low_sleep_day_count := some lowDays.length }
  let r2 : CorrResults :=
    if goodDays.isEmpty then r1
    else { r1 with
      avg_calories_good_sleep := some (meanCalories goodDays),
      good_sleep_day_count := some goodDays.length }
  let withSleep := vals.filter (fun d => d.sleep_hours.isSome)
  if withSleep.isEmpty then r2
  else
    let lowAll := withSleep.filter (fun d => decide (d.sleep_hours.getD 0 < 6))
    let goodAll := withSleep.filter (fun d => decide (7 ≤ d.sleep_hours.getD 0))
    let lowWk := (lowAll.filter (fun d => ! d.workouts.isEmpty)).length
    let goodWk := (goodAll.filter (fun d => ! d.workouts.isEmpty)).length
    let r3 : CorrResults :=
      if lowAll.length > 0 then
        { r2 with
          workout_rate_low_sleep := some ((lowWk : Rat) / (lowAll.length : Rat)) }
      else r2
    if goodAll.length > 0 then
      { r3 with
        workout_rate_good_sleep := some ((goodWk : Rat) / (goodAll.length : Rat)) }
    else r3

/-- Calendar-date order, the order Python `date` values sort by. -/
def dle (a b : Date) : Bool :=
  decide (a.year < b.year) ||
    (a.year == b.year && (decide (a.month < b.month) ||
      (a.month == b.month && decide (a.day ≤ b.day))))

/-- Binary minimum in calendar-date order. -/
def dmin (a b : Date) : Date := if dle b a then b else a

/-- Binary maximum in calendar-date order. -/
def dmax (a b : Date) : Date := if dle a b then b else a

/-- Sorted insertion into a date list. -/
def insertSorted (d : Date) : List Date → List Date
  | [] => [d]
  | x :: xs => if dle d x then d :: x :: xs else x :: insertSorted d xs

/-- The `sorted(...)` of a date list. -/
def sortDates (l : List Date) : List Date := l.foldr insertSorted []

/-- Rounding to two decimal places, for `round(x, 2)` (the embedding rounds
half up; the claims evaluate it only where the two agree). -/
def round2 (x : Rat) : Rat := (round (x * 100) : Int) / 100

/-- Rendering of an offset-aware universal timestamp by `isoformat`. -/
def isoUtc (t : NaiveDT) : String :=
  (⟨pad4 t.date.year ++ '-' :: pad2 t.date.month ++ '-' :: pad2 t.date.day ++
    'T' :: pad2 t.hour ++ ':' :: pad2 t.minute ++ ':' :: pad2 t.second⟩ : String)
    ++ "+00:00"

/-- Rendering of the universal timestamp at seconds precision in the same
wall-clock shape as the workout input format, with the zero-offset suffix
appended. -/
def renderUtcSeconds (t : NaiveDT) : String := formatTs t ++ "+00:00"

/-- Bucket summary in the correlations section of the JSON report. -/
structure BucketOut where
  count : Nat
  avg_calories_burned : Rat
  deriving DecidableEq, Repr

/-- Per-day workout entry of the JSON report. -/
structure JsonWorkout where
  id : String
  wtype : String
  duration_min : Int
  calories : Int
  timestamp_utc : String
  original_timestamp : String
  original_timezone : String
  day_boundary_crossed : Bool
  deriving DecidableEq, Repr

/-- Per-day entry of the JSON report. -/
structure JsonDaily where
  date_utc : String
  sleep : Option (Rat × Option Int)
  workouts : List JsonWorkout
  total_calories : Int
  total_workout_minutes : Int
  workout_count : Nat
  deriving DecidableEq, Repr

/-- The JSON report of `generate_json_output` (the impure `generated_at`
instant is not modelled). -/
structure JsonOutput where
  total_days : Nat
  range_start : String
  range_end : String
  daily_data : List JsonDaily
  low_sleep_days : BucketOut
  good_sleep_days : BucketOut
  day_boundary_crossings : Nat
  deriving DecidableEq, Repr

/-- Embedding of `generate_json_output` of `src/tool/reporter.py`.  The
Python function raises when `min(merged.keys())` is evaluated on an empty
mapping; the embedding returns `none` there. -/
def generate_json_output (merged : List (Date × DailyAggregate))
    (workout_records : List WorkoutRecord) (c : CorrResults) :
    Option JsonOutput :=
  match merged.map Prod.fst with
  | [] => none
  | k :: ks =>
    let daily := (sortDates (k :: ks)).map (fun day =>
      let data := aggGet merged day
      { date_utc := formatDate day
        sleep := match data.sleep_hours with
          | some h => some (h, data.sleep_quality)
          | none => none
        workouts := data.workouts.map (fun w =>
          { id := w.id
            wtype := w.workout_type
            duration_min := w.duration_min
            calories := w.calories
            timestamp_utc := isoUtc w.timestamp_utc
            original_timestamp := w.original_timestamp
            original_timezone := w.original_timezone
            day_boundary_crossed := w.crossed_day_boundary })
        total_calories := data.total_calories
        total_workout_minutes := data.total_workout_minutes
        workout_count := data.workouts.length })
    some
      { total_days := merged.length
        range_start := formatDate (ks.foldl dmin k)
        range_end := formatDate (ks.foldl dmax k)
        daily_data := daily
        low_sleep_days :=
          { count := c.low_sleep_day_count.getD 0,
            avg_calories_burned := round2 (c.avg_calories_low_sleep.getD 0) }
        good_sleep_days :=
          { count := c.good_sleep_day_count.getD 0,
            avg_calories_burned := round2 (c.avg_calories_good_sleep.getD 0) }
        day_boundary_crossings :=
          (workout_records.filter (fun w => w.crossed_day_boundary)).length }

/-- Inversion of a successful workout-entry normalization: the gates it
passed and the exact record it built. -/
theorem processWorkoutEntry_ok (db : ZoneDB) (idx : Nat) (e : RawWorkoutEntry)
    (r : WorkoutRecord) (h : processWorkoutEntry db idx e = .ok r) :
    ∃ z local_dt,
      validate_workout_entry e idx = none ∧
      db (e.tz.getD vacant) = some z ∧
      parseTs (e.timestamp.getD vacant) = some local_dt ∧
      ¬(e.duration_min.getD 0 < 0 ∨ e.duration_min.getD 0 > 1440) ∧
      ¬(e.calories.getD 0 < 0) ∧
      r = ⟨e.id.getD vacant, fromSecs (toSecs local_dt - z.offAt local_dt),
        (fromSecs (toSecs local_dt - z.offAt local_dt)).date,
        e.timestamp.getD vacant, e.tz.getD vacant, e.wtype.getD vacant,
        e.duration_min.getD 0, e.calories.getD 0,
        decide (local_dt.date ≠
          (fromSecs (toSecs local_dt - z.offAt local_dt)).date)⟩ := by
  unfold processWorkoutEntry at h
  split at h
  · simp at h
  next hv =>
    split at h
    · simp at h
    next z hz =>
      split at h
      · simp at h
      next local_dt hp =>
        split_ifs at h with h1 h2
        exact ⟨z, local_dt, hv, hz, hp, h1, h2, (Except.ok.inj h).symm⟩

/-- Inversion of a successful sleep-entry normalization. -/
theorem processSleepEntry_ok (idx : Nat) (e : RawSleepEntry) (r : SleepRecord)
    (h : processSleepEntry idx e = .ok r) :
    ∃ sdt edt,
      validate_sleep_entry e idx = none ∧
      parseIso (replZ (e.sleep_start.getD vacant)) = some sdt ∧
      parseIso (replZ (e.sleep_end.getD vacant)) = some edt ∧
      ¬(e.duration_hours.getD 0 < 0 ∨ e.duration_hours.getD 0 > 24) ∧
      ¬(e.quality_score.getD 0 < 0 ∨ e.quality_score.getD 0 > 100) ∧
      r = ⟨edt.date, sdt, edt, e.duration_hours.getD 0,
        e.quality_score.getD 0⟩ := by
  unfold processSleepEntry at h
  split at h
  · simp at h
  next hv =>
    split at h
    · simp at h
    next sdt hps =>
      split at h
      · simp at h
      next edt hpe =>
        split_ifs at h with h1 h2
        exact ⟨sdt, edt, hv, hps, hpe, h1, h2, (Except.ok.inj h).symm⟩

/-- Unfolding of the float order on two ordinary values. -/
theorem PyFloat.lt_fin_fin (a b : Rat) :
    PyFloat.lt (PyFloat.fin a) (PyFloat.fin b) = decide (a < b) := rfl

/-- Inversion of a successful float-faithful sleep-entry normalization. -/
theorem processSleepEntryPy_ok (idx : Nat) (e : RawSleepEntryPy)
    (r : SleepRecordPy) (h : processSleepEntryPy idx e = .ok r) :
    ∃ sdt edt,
      validate_sleep_entry_py e idx = none ∧
      parseIso (replZ (e.sleep_start.getD vacant)) = some sdt ∧
      parseIso (replZ (e.sleep_end.getD vacant)) = some edt ∧
      (PyFloat.lt (e.duration_hours.getD (PyFloat.fin 0)) (PyFloat.fin 0) ||
        PyFloat.lt (PyFloat.fin 24) (e.duration_hours.getD (PyFloat.fin 0)))
        = false ∧
      ¬(e.quality_score.getD 0 < 0 ∨ e.quality_score.getD 0 > 100) ∧
      r = ⟨edt.date, sdt, edt, e.duration_hours.getD (PyFloat.fin 0),
        e.quality_score.getD 0⟩ := by
  unfold processSleepEntryPy at h
  split at h
  · simp at h
  next hv =>
    split at h
    · simp at h
    next sdt hps =>
      split at h
      · simp at h
      next edt hpe =>
        split_ifs at h with h1 h2
        exact ⟨sdt, edt, hv, hps, hpe, Bool.eq_false_iff.mpr h1, h2,
          (Except.ok.inj h).symm⟩

/-- Workout entry of the boundary-crossing example of the specification. -/
def exEntryLA : RawWorkoutEntry :=
  ⟨some "w1", some "2023-10-01 23:15:00", some "America/Los_Angeles",
    some "run", some 45, some 400⟩

/-- Normalized record of the boundary-crossing example: universal timestamp
2023-10-02 06:15:00, attributed to 2023-10-02, boundary flagged. -/
def exRecordLA : WorkoutRecord :=
  ⟨"w1", ⟨⟨2023, 10, 2⟩, 6, 15, 0⟩, ⟨2023, 10, 2⟩, "2023-10-01 23:15:00",
    "America/Los_Angeles", "run", 45, 400, true⟩

/-- C1: for every workout entry accepted by the loader, the record crosses
the day boundary exactly when the calendar date of the parsed naive local
timestamp differs from the calendar date of its conversion to the universal
clock through the resolved zone, and `date_utc` is the universal calendar
date; in particular local 2023-10-01 23:15:00 in America/Los_Angeles yields
universal 2023-10-02 06:15:00, a flagged crossing, and attribution to
2023-10-02. -/
theorem spec_C1 :
    (∀ (db : ZoneDB) (idx : Nat) (e : RawWorkoutEntry) (r : WorkoutRecord),
      processWorkoutEntry db idx e = .ok r →
      ∃ z local_dt,
        db (e.tz.getD vacant) = some z ∧
        parseTs (e.timestamp.getD vacant) = some local_dt ∧
        (r.crossed_day_boundary = true ↔
          local_dt.date ≠ (fromSecs (toSecs local_dt - z.offAt local_dt)).date) ∧
        r.date_utc = (fromSecs (toSecs local_dt - z.offAt local_dt)).date) ∧
    processWorkoutEntry exampleDB 0 exEntryLA = .ok exRecordLA := by
  constructor
  · intro db idx e r h
    obtain ⟨z, dt, hv, hz, hp, h1, h2, rfl⟩ := processWorkoutEntry_ok db idx e r h
    exact ⟨z, dt, hz, hp, decide_eq_true_iff, rfl⟩
  · rfl

/-- Closed instance of the C1 theorem at the boundary-crossing example. -/
theorem spec_C1_witness :
    ∃ z local_dt,
      exampleDB (exEntryLA.tz.getD vacant) = some z ∧
      parseTs (exEntryLA.timestamp.getD vacant) = some local_dt ∧
      (exRecordLA.crossed_day_boundary = true ↔
        local_dt.date ≠ (fromSecs (toSecs local_dt - z.offAt local_dt)).date) ∧
      exRecordLA.date_utc = (fromSecs (toSecs local_dt - z.offAt local_dt)).date :=
  spec_C1.1 exampleDB 0 exEntryLA exRecordLA spec_C1.2

/-- C2: every accepted sleep entry is attributed to the calendar date of the
parsed sleep end, never to the date of the sleep start when the two
differ. -/
theorem spec_C2 (idx : Nat) (e : RawSleepEntry) (r : SleepRecord)
    (h : processSleepEntry idx e = .ok r) :
    ∃ sdt edt,
      parseIso (replZ (e.sleep_start.getD vacant)) = some sdt ∧
      parseIso (replZ (e.sleep_end.getD vacant)) = some edt ∧
      r.date_utc = edt.date ∧
      (edt.date ≠ sdt.date → r.date_utc ≠ sdt.date) := by
  obtain ⟨sdt, edt, hv, hps, hpe, h1, h2, rfl⟩ := processSleepEntry_ok idx e r h
  exact ⟨sdt, edt, hps, hpe, rfl, fun hne => hne⟩

/-- Sleep entry crossing midnight: asleep 2023-09-30 23:30, awake
2023-10-01 07:00. -/
def exEntrySleep : RawSleepEntry :=
  ⟨some "2023-09-30T23:30:00Z", some "2023-10-01T07:00:00Z", some 8, some 80⟩

/-- Normalized record of the midnight-crossing sleep example, attributed to
the wake-up date. -/
def exRecordSleep : SleepRecord :=
  ⟨⟨2023, 10, 1⟩, ⟨⟨2023, 9, 30⟩, 23, 30, 0⟩, ⟨⟨2023, 10, 1⟩, 7, 0, 0⟩, 8, 80⟩

/-- Inversion of a successful fail-fast workout-entry normalization: the
gates and the record coincide with the skip-and-warn pipeline. -/
theorem processWorkoutEntryStrict_ok (db : ZoneDB) (idx : Nat)
    (e : RawWorkoutEntry) (r : WorkoutRecord)
    (h : processWorkoutEntryStrict db idx e = .ok r) :
    ∃ z local_dt,
      validate_workout_entry e idx = none ∧
      db (e.tz.getD vacant) = some z ∧
      parseTs (e.timestamp.getD vacant) = some local_dt ∧
      ¬(e.duration_min.getD 0 < 0 ∨ e.duration_min.getD 0 > 1440) ∧
      ¬(e.calories.getD 0 < 0) ∧
      r = ⟨e.id.getD vacant, fromSecs (toSecs local_dt - z.offAt local_dt),
        (fromSecs (toSecs local_dt - z.offAt local_dt)).date,
        e.timestamp.getD vacant, e.tz.getD vacant, e.wtype.getD vacant,
        e.duration_min.getD 0, e.calories.getD 0,
        decide (local_dt.date ≠
          (fromSecs (toSecs local_dt - z.offAt local_dt)).date)⟩ := by
  unfold processWorkoutEntryStrict at h
  split at h
  · simp at h
  next hv =>
    split at h
    · simp at h
    next z hz =>
      split at h
      · simp at h
      next local_dt hp =>
        split_ifs at h with h1 h2
        exact ⟨z, local_dt, hv, hz, hp, h1, h2, (Except.ok.inj h).symm⟩

/-- Acceptance agreement of the two per-entry pipelines: the fail-fast and
the skip-and-warn variant accept exactly the same entries with exactly the
same normalized record. -/
theorem strict_tool_ok_iff (db : ZoneDB) (idx : Nat) (e : RawWorkoutEntry)
    (r : WorkoutRecord) :
    processWorkoutEntryStrict db idx e = .ok r ↔
      processWorkoutEntry db idx e = .ok r := by
  constructor
  · intro h
    obtain ⟨z, dt, hv, hz, hp, h1, h2, rfl⟩ :=
      processWorkoutEntryStrict_ok db idx e r h
    unfold processWorkoutEntry
    simp only [hv, hz, hp]
    rw [if_neg h1, if_neg h2]
  · intro h
    obtain ⟨z, dt, hv, hz, hp, h1, h2, rfl⟩ := processWorkoutEntry_ok db idx e r h
    unfold processWorkoutEntryStrict
    simp only [hv, hz, hp]
    rw [if_neg h1, if_neg h2]

/-- Loader agreement: when the skip-and-warn loop skips nothing, the
fail-fast loop succeeds with the same record list. -/
theorem loadAux_agree (db : ZoneDB) (es : List RawWorkoutEntry) (idx : Nat)
    (h : (loadWorkoutToolAux db idx es).2 = []) :
    loadWorkoutStrictAux db idx es = .ok (loadWorkoutToolAux db idx es).1 := by
  induction es generalizing idx with
  | nil => rfl
  | cons e es ih =>
    simp only [loadWorkoutToolAux, loadWorkoutStrictAux] at h ⊢
    cases hp : processWorkoutEntry db idx e with
    | error m =>
      simp only [hp] at h
      exact List.noConfusion h
    | ok r =>
      simp only [hp] at h ⊢
      have hps : processWorkoutEntryStrict db idx e = .ok r :=
        (strict_tool_ok_iff db idx e r).mpr hp
      simp only [hps]
      rw [ih (idx + 1) h]

/-- C3: the fail-fast loader variant of `src/data_loader.py` and the
skip-and-warn loader of `src/tool/data_loader.py` produce identical
normalized records for every entry that validates, and on an input where
every record is valid the two loaders return equal record lists. -/
theorem spec_C3 :
    (∀ (db : ZoneDB) (idx : Nat) (e : RawWorkoutEntry) (r : WorkoutRecord),
      processWorkoutEntryStrict db idx e = .ok r ↔
        processWorkoutEntry db idx e = .ok r) ∧
    (∀ (db : ZoneDB) (es : List RawWorkoutEntry),
      (load_workout_data db es).2 = [] →
      load_workout_data_strict db es = .ok (load_workout_data db es).1) :=
  ⟨strict_tool_ok_iff, fun db es h => loadAux_agree db es 0 h⟩

/-- Closed instance of the C3 theorem on a one-entry all-valid input. -/
theorem spec_C3_witness :
    load_workout_data_strict exampleDB [exEntryLA] =
      .ok (load_workout_data exampleDB [exEntryLA]).1 :=
  spec_C3.2 exampleDB [exEntryLA] (by rfl)

/-- Closed instance of the C2 theorem at the midnight-crossing example. -/
theorem spec_C2_witness :
    processSleepEntry 0 exEntrySleep = .ok exRecordSleep ∧
    ∃ sdt edt,
      parseIso (replZ (exEntrySleep.sleep_start.getD vacant)) = some sdt ∧
      parseIso (replZ (exEntrySleep.sleep_end.getD vacant)) = some edt ∧
      exRecordSleep.date_utc = edt.date ∧
      (edt.date ≠ sdt.date → exRecordSleep.date_utc ≠ sdt.date) :=
  ⟨by rfl, spec_C2 0 exEntrySleep exRecordSleep (by rfl)⟩


/-- Running-totals invariant of a daily aggregate: each total equals the
sum over the attached workout list. -/
def aggInv (a : DailyAggregate) : Prop :=
  a.total_calories = (a.workouts.map WorkoutRecord.calories).sum ∧
  a.total_workout_minutes = (a.workouts.map WorkoutRecord.duration_min).sum

/-- The fresh aggregate satisfies the totals invariant. -/
theorem aggInv_empty : aggInv emptyAgg := by
  constructor <;> rfl

/-- Reading the mapping yields an aggregate satisfying any property held by
all stored aggregates and by the fresh aggregate. -/
theorem aggGet_prop (P : DailyAggregate → Prop) (m : List (Date × DailyAggregate))
    (day : Date) (h0 : P emptyAgg) (h : ∀ p ∈ m, P p.2) : P (aggGet m day) := by
  induction m with
  | nil => exact h0
  | cons p ps ih =>
    rw [aggGet]
    split_ifs with hd
    · exact h p (List.mem_cons_self p ps)
    · exact ih fun q hq => h q (List.mem_cons_of_mem p hq)

/-- Membership after a write-back: every stored pair is an old pair or the
written pair. -/
theorem aggSet_mem (m : List (Date × DailyAggregate)) (day : Date)
    (v : DailyAggregate) (p : Date × DailyAggregate) (h : p ∈ aggSet m day v) :
    p ∈ m ∨ p = (day, v) := by
  induction m with
  | nil =>
    rw [aggSet] at h
    right
    simpa using h
  | cons q qs ih =>
    rw [aggSet] at h
    split_ifs at h with hd
    · rcases List.mem_cons.mp h with h1 | h1
      · right; exact h1
      · left; exact List.mem_cons_of_mem q h1
    · rcases List.mem_cons.mp h with h1 | h1
      · left; rw [h1]; exact List.mem_cons_self q qs
      · rcases ih h1 with h2 | h2
        · left; exact List.mem_cons_of_mem q h2
        · right; exact h2

/-- Keys after a write-back. -/
theorem aggSet_keys (m : List (Date × DailyAggregate)) (day : Date)
    (v : DailyAggregate) (d : Date) :
    d ∈ (aggSet m day v).map Prod.fst ↔ d ∈ m.map Prod.fst ∨ d = day := by
  induction m with
  | nil => simp [aggSet]
  | cons q qs ih =>
    rw [aggSet]
    split_ifs with hd
    · subst hd
      simp only [List.map_cons, List.mem_cons]
      tauto
    · simp only [List.map_cons, List.mem_cons]
      rw [ih]
      tauto

/-- Key distinctness is preserved by a write-back. -/
theorem aggSet_nodup (m : List (Date × DailyAggregate)) (day : Date)
    (v : DailyAggregate) (h : (m.map Prod.fst).Nodup) :
    ((aggSet m day v).map Prod.fst).Nodup := by
  induction m with
  | nil => simp [aggSet]
  | cons q qs ih =>
    rw [aggSet]
    simp only [List.map_cons, List.nodup_cons] at h
    split_ifs with hd
    · subst hd
      simp only [List.map_cons, List.nodup_cons]
      exact h
    · simp only [List.map_cons, List.nodup_cons]
      refine ⟨?_, ih h.2⟩
      rw [aggSet_keys]
      rintro (h1 | h1)
      · exact h.1 h1
      · exact hd h1

/-- Totals invariant is preserved by the sleep pass: it rewrites only the
date and sleep fields. -/
theorem mergeSleepStep_inv (m : List (Date × DailyAggregate)) (s : SleepRecord)
    (h : ∀ p ∈ m, aggInv p.2) : ∀ p ∈ mergeSleepStep m s, aggInv p.2 := by
  intro p hp
  rcases aggSet_mem _ _ _ p hp with h1 | h1
  · exact h p h1
  · rw [h1]
    exact aggGet_prop aggInv m s.date_utc aggInv_empty h

/-- Totals invariant is preserved by the workout pass: the appended workout
is accounted in both running totals. -/
theorem mergeWorkoutStep_inv (m : List (Date × DailyAggregate))
    (w : WorkoutRecord) (h : ∀ p ∈ m, aggInv p.2) :
    ∀ p ∈ mergeWorkoutStep m w, aggInv p.2 := by
  intro p hp
  rcases aggSet_mem _ _ _ p hp with h1 | h1
  · exact h p h1
  · rw [h1]
    obtain ⟨hc, hm⟩ := aggGet_prop aggInv m w.date_utc aggInv_empty h
    constructor
    · simp [aggInv, List.map_append, hc]
    · simp [aggInv, List.map_append, hm]

/-- Keys after the sleep pass. -/
theorem mergeSleepStep_keys (m : List (Date × DailyAggregate)) (s : SleepRecord)
    (d : Date) : d ∈ (mergeSleepStep m s).map Prod.fst ↔
      d ∈ m.map Prod.fst ∨ d = s.date_utc :=
  aggSet_keys m s.date_utc _ d

/-- Keys after the workout pass. -/
theorem mergeWorkoutStep_keys (m : List (Date × DailyAggregate))
    (w : WorkoutRecord) (d : Date) :
    d ∈ (mergeWorkoutStep m w).map Prod.fst ↔
      d ∈ m.map Prod.fst ∨ d = w.date_utc :=
  aggSet_keys m w.date_utc _ d

/-- Totals invariant through the sleep fold. -/
theorem foldSleep_inv (l : List SleepRecord) (m : List (Date × DailyAggregate))
    (h : ∀ p ∈ m, aggInv p.2) : ∀ p ∈ l.foldl mergeSleepStep m, aggInv p.2 := by
  induction l generalizing m with
  | nil => simpa using h
  | cons s l ih => exact ih (mergeSleepStep m s) (mergeSleepStep_inv m s h)

/-- Totals invariant through the workout fold. -/
theorem foldWorkout_inv (l : List WorkoutRecord)
    (m : List (Date × DailyAggregate)) (h : ∀ p ∈ m, aggInv p.2) :
    ∀ p ∈ l.foldl mergeWorkoutStep m, aggInv p.2 := by
  induction l generalizing m with
  | nil => simpa using h
  | cons w l ih => exact ih (mergeWorkoutStep m w) (mergeWorkoutStep_inv m w h)

/-- Keys through the sleep fold. -/
theorem foldSleep_keys (l : List SleepRecord) (m : List (Date × DailyAggregate))
    (d : Date) : d ∈ (l.foldl mergeSleepStep m).map Prod.fst ↔
      d ∈ m.map Prod.fst ∨ d ∈ l.map SleepRecord.date_utc := by
  induction l generalizing m with
  | nil => simp
  | cons s l ih =>
    rw [List.foldl_cons, ih, mergeSleepStep_keys]
    simp only [List.map_cons, List.mem_cons]
    tauto

/-- Keys through the workout fold. -/
theorem foldWorkout_keys (l : List WorkoutRecord)
    (m : List (Date × DailyAggregate)) (d : Date) :
    d ∈ (l.foldl mergeWorkoutStep m).map Prod.fst ↔
      d ∈ m.map Prod.fst ∨ d ∈ l.map WorkoutRecord.date_utc := by
  induction l generalizing m with
  | nil => simp
  | cons w l ih =>
    rw [List.foldl_cons, ih, mergeWorkoutStep_keys]
    simp only [List.map_cons, List.mem_cons]
    tauto

/-- Key distinctness through the sleep fold. -/
theorem foldSleep_nodup (l : List SleepRecord) (m : List (Date × DailyAggregate))
    (h : (m.map Prod.fst).Nodup) :
    ((l.foldl mergeSleepStep m).map Prod.fst).Nodup := by
  induction l generalizing m with
  | nil => simpa using h
  | cons s l ih => exact ih (mergeSleepStep m s) (aggSet_nodup m s.date_utc _ h)

/-- Key distinctness through the workout fold. -/
theorem foldWorkout_nodup (l : List WorkoutRecord)
    (m : List (Date × DailyAggregate)) (h : (m.map Prod.fst).Nodup) :
    ((l.foldl mergeWorkoutStep m).map Prod.fst).Nodup := by
  induction l generalizing m with
  | nil => simpa using h
  | cons w l ih => exact ih (mergeWorkoutStep m w) (aggSet_nodup m w.date_utc _ h)

/-- C4: in the mapping returned by the merge, every aggregate carries totals
that equal the sums over its attached workout list, and the mapping has
exactly one entry per distinct date occurring in either input and no entry
for any other date. -/
theorem spec_C4 (sleeps : List SleepRecord) (workouts : List WorkoutRecord) :
    (∀ p ∈ merge_by_day sleeps workouts,
      p.2.total_calories = (p.2.workouts.map WorkoutRecord.calories).sum ∧
      p.2.total_workout_minutes =
        (p.2.workouts.map WorkoutRecord.duration_min).sum) ∧
    ((merge_by_day sleeps workouts).map Prod.fst).Nodup ∧
    (∀ d : Date, d ∈ (merge_by_day sleeps workouts).map Prod.fst ↔
      d ∈ sleeps.map SleepRecord.date_utc ∨
        d ∈ workouts.map WorkoutRecord.date_utc) := by
  refine ⟨?_, ?_, ?_⟩
  · exact foldWorkout_inv workouts _ (foldSleep_inv sleeps [] (by simp))
  · exact foldWorkout_nodup workouts _ (foldSleep_nodup sleeps [] (by simp))
  · intro d
    unfold merge_by_day
    rw [foldWorkout_keys, foldSleep_keys]
    simp

/-- Closed instance of the C4 theorem on a one-workout input. -/
theorem spec_C4_witness :
    exRecordLA.date_utc ∈ (merge_by_day [] [exRecordLA]).map Prod.fst :=
  ((spec_C4 [] [exRecordLA]).2.2 exRecordLA.date_utc).mpr (Or.inr (by simp))

/-- Low-sleep fields of the correlation result: present with the bucket
count and mean exactly when the low bucket is non-empty. -/
theorem corr_low_fields (m : List (Date × DailyAggregate)) :
    (calculate_correlations m).low_sleep_day_count =
      (if ((m.map Prod.snd).filter isLowSleepActive).isEmpty then none
        else some ((m.map Prod.snd).filter isLowSleepActive).length) ∧
    (calculate_correlations m).avg_calories_low_sleep =
      (if ((m.map Prod.snd).filter isLowSleepActive).isEmpty then none
        else some (meanCalories ((m.map Prod.snd).filter isLowSleepActive))) := by
  unfold calculate_correlations
  constructor <;>
    simp only [apply_ite CorrResults.low_sleep_day_count,
      apply_ite CorrResults.avg_calories_low_sleep, ite_self, emptyCorr]

/-- Good-sleep fields of the correlation result: present with the bucket
count and mean exactly when the good bucket is non-empty. -/
theorem corr_good_fields (m : List (Date × DailyAggregate)) :
    (calculate_correlations m).good_sleep_day_count =
      (if ((m.map Prod.snd).filter isGoodSleepActive).isEmpty then none
        else some ((m.map Prod.snd).filter isGoodSleepActive).length) ∧
    (calculate_correlations m).avg_calories_good_sleep =
      (if ((m.map Prod.snd).filter isGoodSleepActive).isEmpty then none
        else some (meanCalories ((m.map Prod.snd).filter isGoodSleepActive))) := by
  unfold calculate_correlations
  constructor <;>
    simp only [apply_ite CorrResults.good_sleep_day_count,
      apply_ite CorrResults.avg_calories_good_sleep, ite_self, emptyCorr]

/-- C5: the correlation analysis partitions the days with positive calorie
totals by sleep duration: a day sleeping under six hours lands in the low
bucket, a day sleeping at least seven in the good bucket, a day in between
or without a sleep value in neither; and each bucket's count and mean are
present in the result exactly when the bucket is non-empty. -/
theorem spec_C5 (m : List (Date × DailyAggregate)) :
    (∀ d ∈ m.map Prod.snd, ∀ h : Rat, d.sleep_hours = some h →
      0 < d.total_calories →
      ((h < 6 → d ∈ (m.map Prod.snd).filter isLowSleepActive) ∧
       (7 ≤ h → d ∈ (m.map Prod.snd).filter isGoodSleepActive) ∧
       (6 ≤ h → h < 7 → d ∉ (m.map Prod.snd).filter isLowSleepActive ∧
          d ∉ (m.map Prod.snd).filter isGoodSleepActive))) ∧
    (∀ d ∈ m.map Prod.snd, d.sleep_hours = none →
      d ∉ (m.map Prod.snd).filter isLowSleepActive ∧
      d ∉ (m.map Prod.snd).filter isGoodSleepActive) ∧
    ((calculate_correlations m).low_sleep_day_count =
      (if ((m.map Prod.snd).filter isLowSleepActive).isEmpty then none
        else some ((m.map Prod.snd).filter isLowSleepActive).length)) ∧
    ((calculate_correlations m).avg_calories_low_sleep =
      (if ((m.map Prod.snd).filter isLowSleepActive).isEmpty then none
        else some (meanCalories ((m.map Prod.snd).filter isLowSleepActive)))) ∧
    ((calculate_correlations m).good_sleep_day_count =
      (if ((m.map Prod.snd).filter isGoodSleepActive).isEmpty then none
        else some ((m.map Prod.snd).filter isGoodSleepActive).length)) ∧
    ((calculate_correlations m).avg_calories_good_sleep =
      (if ((m.map Prod.snd).filter isGoodSleepActive).isEmpty then none
        else some (meanCalories ((m.map Prod.snd).filter isGoodSleepActive)))) := by
  refine ⟨?_, ?_, (corr_low_fields m).1, (corr_low_fields m).2,
    (corr_good_fields m).1, (corr_good_fields m).2⟩
  · intro d hd h hsome hcal
    refine ⟨?_, ?_, ?_⟩
    · intro hlt
      rw [List.mem_filter]
      exact ⟨hd, by simp [isLowSleepActive, hsome, hlt, hcal]⟩
    · intro hge
      rw [List.mem_filter]
      exact ⟨hd, by simp [isGoodSleepActive, hsome, hge, hcal]⟩
    · intro h6 h7
      constructor
      · rw [List.mem_filter]
        rintro ⟨-, hact⟩
        simp only [isLowSleepActive, hsome, Bool.and_eq_true,
          decide_eq_true_eq] at hact
        linarith [hact.1]
      · rw [List.mem_filter]
        rintro ⟨-, hact⟩
        simp only [isGoodSleepActive, hsome, Bool.and_eq_true,
          decide_eq_true_eq] at hact
        linarith [hact.1]
  · intro d hd hnone
    constructor
    · rw [List.mem_filter]
      rintro ⟨-, hact⟩
      simp [isLowSleepActive, hnone] at hact
    · rw [List.mem_filter]
      rintro ⟨-, hact⟩
      simp [isGoodSleepActive, hnone] at hact

/-- Closed instance of the C5 theorem: on the example input no day lands in
the low bucket. -/
theorem spec_C5_witness :
    (calculate_correlations
      (merge_by_day [exRecordSleep] [exRecordLA])).low_sleep_day_count = none := by
  have h := (spec_C5 (merge_by_day [exRecordSleep] [exRecordLA])).2.2.1
  rw [h]
  decide

/-- Structural lexicographic order on character lists: the alphabetical
order `sorted` uses, code point by code point. -/
def lexLe : List Char → List Char → Bool
  | [], _ => true
  | _ :: _, [] => false
  | a :: as, b :: bs =>
    if a < b then true else if a = b then lexLe as bs else false

/-- Failure of workout validation with the full sorted missing-field
message. -/
theorem validate_workout_fails (e : RawWorkoutEntry) (idx : Nat)
    (hne : missingWorkout e ≠ []) :
    validate_workout_entry e idx = some (missingWorkoutMsg idx (missingWorkout e)) := by
  unfold validate_workout_entry
  rw [if_neg]
  simpa using hne

/-- Failure of sleep validation with the full sorted missing-field
message. -/
theorem validate_sleep_fails (e : RawSleepEntry) (idx : Nat)
    (hne : missingSleep e ≠ []) :
    validate_sleep_entry e idx = some (missingSleepMsg idx (missingSleep e)) := by
  unfold validate_sleep_entry
  rw [if_neg]
  simpa using hne

/-- C6: an entry missing required fields fails with the error listing every
missing field name sorted alphabetically (the message is built from the
complete sorted missing list, for sleep and workout entries alike); in
particular a workout entry without `tz` fails with that error whatever its
timestamp contains, so before any timestamp parsing is attempted. -/
theorem spec_C6 :
    (∀ (db : ZoneDB) (idx : Nat) (e : RawWorkoutEntry), missingWorkout e ≠ [] →
      processWorkoutEntry db idx e =
        .error (missingWorkoutMsg idx (missingWorkout e))) ∧
    (∀ (idx : Nat) (e : RawSleepEntry), missingSleep e ≠ [] →
      processSleepEntry idx e = .error (missingSleepMsg idx (missingSleep e))) ∧
    (∀ e : RawWorkoutEntry,
      List.Sorted (fun a b => lexLe a.data b.data = true) (missingWorkout e)) ∧
    (∀ e : RawSleepEntry,
      List.Sorted (fun a b => lexLe a.data b.data = true) (missingSleep e)) ∧
    (∀ (e : RawWorkoutEntry) (f : String),
      f ∈ missingWorkout e ↔ f ∈ workoutRequired ∧ wHas e f = false) ∧
    (∀ (e : RawSleepEntry) (f : String),
      f ∈ missingSleep e ↔ f ∈ sleepRequired ∧ sHas e f = false) ∧
    (∀ (db : ZoneDB) (idx : Nat) (e : RawWorkoutEntry), e.tz = none →
      processWorkoutEntry db idx e =
        .error (missingWorkoutMsg idx (missingWorkout e))) := by
  have hw : ∀ (db : ZoneDB) (idx : Nat) (e : RawWorkoutEntry),
      missingWorkout e ≠ [] →
      processWorkoutEntry db idx e =
        .error (missingWorkoutMsg idx (missingWorkout e)) := by
    intro db idx e hne
    unfold processWorkoutEntry
    rw [validate_workout_fails e idx hne]
  refine ⟨hw, ?_, ?_, ?_, ?_, ?_, ?_⟩
  · intro idx e hne
    unfold processSleepEntry
    rw [validate_sleep_fails e idx hne]
  · intro e
    exact List.Pairwise.filter _ (by decide :
      List.Sorted (fun a b => lexLe a.data b.data = true) workoutRequired)
  · intro e
    exact List.Pairwise.filter _ (by decide :
      List.Sorted (fun a b => lexLe a.data b.data = true) sleepRequired)
  · intro e f
    unfold missingWorkout
    rw [List.mem_filter]
    simp
  · intro e f
    unfold missingSleep
    rw [List.mem_filter]
    simp
  · intro db idx e htz
    apply hw
    have : "tz" ∈ missingWorkout e := by
      unfold missingWorkout
      rw [List.mem_filter]
      refine ⟨by decide, ?_⟩
      simp [wHas, htz]
    exact List.ne_nil_of_mem this

/-- Closed instance of the C6 theorem at a workout entry missing both `tz`
and `calories`. -/
theorem spec_C6_witness :
    processWorkoutEntry exampleDB 3
        ⟨some "w9", some "not a timestamp", none, some "run", some 10, none⟩ =
      .error (missingWorkoutMsg 3 (missingWorkout
        ⟨some "w9", some "not a timestamp", none, some "run", some 10, none⟩)) :=
  spec_C6.1 exampleDB 3 _ (by decide)

/-- Sleep entry whose `duration_hours` reads as float NaN (a JSON `NaN`
literal or a `nan` string), with all other fields present and valid. -/
def nanSleepEntry : RawSleepEntryPy :=
  ⟨some "2023-09-30T23:30:00Z", some "2023-10-01T07:00:00Z",
    some PyFloat.nan, some 80⟩

/-- Record the sleep loader constructs from `nanSleepEntry`: both range
guards are false on NaN, so the entry is accepted and the NaN duration is
stored. -/
def nanSleepRecord : SleepRecordPy :=
  ⟨⟨2023, 10, 1⟩, ⟨⟨2023, 9, 30⟩, 23, 30, 0⟩, ⟨⟨2023, 10, 1⟩, 7, 0, 0⟩,
    PyFloat.nan, 80⟩

/-- C7 counterexample: a sleep entry whose `duration_hours` is float NaN
passes both comparisons of the range guard at `src/tool/data_loader.py`
line 88, so the loader accepts it and constructs a record whose stored
duration lies outside `[0, 24]` under the float order — against the claim
that no constructed record carries an out-of-range value. -/
theorem spec_C7_counterexample :
    processSleepEntryPy 0 nanSleepEntry = .ok nanSleepRecord ∧
    nanSleepRecord.duration_hours = PyFloat.nan ∧
    PyFloat.le (PyFloat.fin 0) nanSleepRecord.duration_hours = false ∧
    PyFloat.le nanSleepRecord.duration_hours (PyFloat.fin 24) = false :=
  ⟨rfl, rfl, rfl, rfl⟩

/-- C7 (amended): an accepted record carries only numeric values that pass
the range guards — for a workout, `duration_min` in `[0, 1440]` and
`calories ≥ 0`; for a sleep entry, `quality_score` in `[0, 100]`, and a
stored `duration_hours` that is either an ordinary value in `[0, 24]` or
float NaN, which passes both guard comparisons — and an out-of-range value
on an otherwise well-formed entry fails with the range message naming the
offending value and the allowed range. -/
theorem spec_C7 :
    (∀ (db : ZoneDB) (idx : Nat) (e : RawWorkoutEntry) (r : WorkoutRecord),
      processWorkoutEntry db idx e = .ok r →
      0 ≤ r.duration_min ∧ r.duration_min ≤ 1440 ∧ 0 ≤ r.calories) ∧
    (∀ (idx : Nat) (e : RawSleepEntryPy) (r : SleepRecordPy),
      processSleepEntryPy idx e = .ok r →
      (r.duration_hours = PyFloat.nan ∨
        ∃ q : Rat, r.duration_hours = PyFloat.fin q ∧ 0 ≤ q ∧ q ≤ 24) ∧
      0 ≤ r.quality_score ∧ r.quality_score ≤ 100) ∧
    (∀ (db : ZoneDB) (idx : Nat) (e : RawWorkoutEntry) (z : Zone) (dt : NaiveDT),
      validate_workout_entry e idx = none →
      db (e.tz.getD vacant) = some z →
      parseTs (e.timestamp.getD vacant) = some dt →
      (e.duration_min.getD 0 < 0 ∨ e.duration_min.getD 0 > 1440) →
      processWorkoutEntry db idx e = .error (msgBadDur (e.duration_min.getD 0))) ∧
    (∀ (db : ZoneDB) (idx : Nat) (e : RawWorkoutEntry) (z : Zone) (dt : NaiveDT),
      validate_workout_entry e idx = none →
      db (e.tz.getD vacant) = some z →
      parseTs (e.timestamp.getD vacant) = some dt →
      ¬(e.duration_min.getD 0 < 0 ∨ e.duration_min.getD 0 > 1440) →
      e.calories.getD 0 < 0 →
      processWorkoutEntry db idx e = .error (msgBadCal (e.calories.getD 0))) ∧
    (∀ (idx : Nat) (e : RawSleepEntryPy) (sdt edt : NaiveDT),
      validate_sleep_entry_py e idx = none →
      parseIso (replZ (e.sleep_start.getD vacant)) = some sdt →
      parseIso (replZ (e.sleep_end.getD vacant)) = some edt →
      (PyFloat.lt (e.duration_hours.getD (PyFloat.fin 0)) (PyFloat.fin 0) ||
        PyFloat.lt (PyFloat.fin 24) (e.duration_hours.getD (PyFloat.fin 0)))
        = true →
      processSleepEntryPy idx e =
        .error (msgBadHoursPy (e.duration_hours.getD (PyFloat.fin 0)))) ∧
    (∀ (idx : Nat) (e : RawSleepEntryPy) (sdt edt : NaiveDT),
      validate_sleep_entry_py e idx = none →
      parseIso (replZ (e.sleep_start.getD vacant)) = some sdt →
      parseIso (replZ (e.sleep_end.getD vacant)) = some edt →
      (PyFloat.lt (e.duration_hours.getD (PyFloat.fin 0)) (PyFloat.fin 0) ||
        PyFloat.lt (PyFloat.fin 24) (e.duration_hours.getD (PyFloat.fin 0)))
        = false →
      (e.quality_score.getD 0 < 0 ∨ e.quality_score.getD 0 > 100) →
      processSleepEntryPy idx e =
        .error (msgBadQuality (e.quality_score.getD 0))) := by
  refine ⟨?_, ?_, ?_, ?_, ?_, ?_⟩
  · intro db idx e r h
    obtain ⟨z, dt, hv, hz, hp, h1, h2, rfl⟩ := processWorkoutEntry_ok db idx e r h
    push_neg at h1 h2
    exact ⟨h1.1, h1.2, h2⟩
  · intro idx e r h
    obtain ⟨sdt, edt, hv, hps, hpe, h1, h2, rfl⟩ :=
      processSleepEntryPy_ok idx e r h
    push_neg at h2
    refine ⟨?_, h2.1, h2.2⟩
    show (e.duration_hours.getD (PyFloat.fin 0) = PyFloat.nan ∨
      ∃ q : Rat, e.duration_hours.getD (PyFloat.fin 0) = PyFloat.fin q ∧
        0 ≤ q ∧ q ≤ 24)
    cases hdh : e.duration_hours.getD (PyFloat.fin 0) with
    | nan => exact Or.inl rfl
    | pinf => rw [hdh] at h1; exact absurd h1 (by decide)
    | ninf => rw [hdh] at h1; exact absurd h1 (by decide)
    | fin q =>
      rw [hdh] at h1
      simp only [PyFloat.lt_fin_fin, Bool.or_eq_false_iff,
        decide_eq_false_iff_not, not_lt] at h1
      exact Or.inr ⟨q, rfl, h1.1, h1.2⟩
  · intro db idx e z dt hv hz hp hrange
    unfold processWorkoutEntry
    simp only [hv, hz, hp]
    rw [if_pos hrange]
  · intro db idx e z dt hv hz hp h1 h2
    unfold processWorkoutEntry
    simp only [hv, hz, hp]
    rw [if_neg h1, if_pos h2]
  · intro idx e sdt edt hv hps hpe hrange
    unfold processSleepEntryPy
    simp only [hv, hps, hpe]
    rw [if_pos hrange]
  · intro idx e sdt edt hv hps hpe h1 h2
    unfold processSleepEntryPy
    simp only [hv, hps, hpe]
    rw [if_neg (by simp [h1]), if_pos h2]

/-- Closed instance of the C7 theorem: a workout with 2000 minutes fails
with the range message naming the value and the allowed range. -/
theorem spec_C7_witness :
    processWorkoutEntry exampleDB 1
        ⟨some "w3", some "2023-10-01 10:00:00", some "UTC", some "row",
          some 2000, some 100⟩ =
      .error (msgBadDur 2000) :=
  spec_C7.2.2.1 exampleDB 1
    ⟨some "w3", some "2023-10-01 10:00:00", some "UTC", some "row",
      some 2000, some 100⟩ zoneUTC ⟨⟨2023, 10, 1⟩, 10, 0, 0⟩
    (by rfl) (by rfl) (by rfl) (by decide)

/-- C8: when no day has under-six-hours sleep together with a positive
calorie total, the JSON output still carries the low-sleep correlation entry
with zero count and zero mean, neither omitted nor failing; symmetrically
for the good-sleep entry. -/
theorem spec_C8 (m : List (Date × DailyAggregate)) (w : List WorkoutRecord)
    (out : JsonOutput)
    (hout : generate_json_output m w (calculate_correlations m) = some out) :
    ((∀ d ∈ m.map Prod.snd, isLowSleepActive d = false) →
      out.low_sleep_days = ⟨0, 0⟩) ∧
    ((∀ d ∈ m.map Prod.snd, isGoodSleepActive d = false) →
      out.good_sleep_days = ⟨0, 0⟩) := by
  cases m with
  | nil => exact absurd hout (by simp [generate_json_output])
  | cons p ps =>
    simp only [generate_json_output, List.map_cons, Option.some.injEq] at hout
    constructor
    · intro hempty
      have hfil : ((p :: ps).map Prod.snd).filter isLowSleepActive = [] :=
        List.filter_eq_nil_iff.mpr (by simpa using hempty)
      have hcount := (corr_low_fields (p :: ps)).1
      have havg := (corr_low_fields (p :: ps)).2
      rw [hfil] at hcount havg
      simp only [List.isEmpty_nil, if_pos] at hcount havg
      rw [← hout]
      simp [hcount, havg, round2]
    · intro hempty
      have hfil : ((p :: ps).map Prod.snd).filter isGoodSleepActive = [] :=
        List.filter_eq_nil_iff.mpr (by simpa using hempty)
      have hcount := (corr_good_fields (p :: ps)).1
      have havg := (corr_good_fields (p :: ps)).2
      rw [hfil] at hcount havg
      simp only [List.isEmpty_nil, if_pos] at hcount havg
      rw [← hout]
      simp [hcount, havg, round2]

/-- Closed instance of the C8 theorem on a one-day input with no sleep
data. -/
theorem spec_C8_witness :
    ∃ out, generate_json_output (merge_by_day [] [exRecordLA]) []
        (calculate_correlations (merge_by_day [] [exRecordLA])) = some out ∧
      out.low_sleep_days = ⟨0, 0⟩ ∧ out.good_sleep_days = ⟨0, 0⟩ := by
  obtain ⟨out, hout⟩ : ∃ out, generate_json_output (merge_by_day [] [exRecordLA])
      [] (calculate_correlations (merge_by_day [] [exRecordLA])) = some out :=
    ⟨_, rfl⟩
  have h := spec_C8 (merge_by_day [] [exRecordLA]) [] out hout
  exact ⟨out, hout, h.1 (by decide), h.2 (by decide)⟩

/-- Workout entry logged directly in UTC with a non-zero-padded hour, a
shape CPython `strptime` accepts. -/
def exEntryUnpadded : RawWorkoutEntry :=
  ⟨some "w4", some "2023-10-01 8:30:00", some "UTC", some "walk",
    some 30, some 150⟩

/-- Normalized record of the non-zero-padded UTC workout entry: the
original timestamp string keeps its unpadded hour. -/
def exRecordUnpadded : WorkoutRecord :=
  ⟨"w4", ⟨⟨2023, 10, 1⟩, 8, 30, 0⟩, ⟨2023, 10, 1⟩, "2023-10-01 8:30:00",
    "UTC", "walk", 30, 150, false⟩

/-- C9 counterexample: the loader also accepts a non-zero-padded local
timestamp; on that entry, in a zone of fixed zero offset, the
seconds-precision rendering of the universal timestamp is zero-padded and
therefore textually different from the original naive local timestamp with
the zero-offset suffix appended. -/
theorem spec_C9_counterexample :
    exampleDB (exEntryUnpadded.tz.getD vacant) = some zoneUTC ∧
    zoneUTC.offAt = (fun _ => 0) ∧
    processWorkoutEntry exampleDB 0 exEntryUnpadded = .ok exRecordUnpadded ∧
    renderUtcSeconds exRecordUnpadded.timestamp_utc ≠
      exRecordUnpadded.original_timestamp ++ "+00:00" :=
  ⟨rfl, rfl, rfl, by decide⟩

/-- C9 (amended): a workout whose zone resolves to a fixed zero offset
keeps its wall-clock time under normalization: the universal timestamp
equals the parsed naive local timestamp, its seconds-precision rendering is
the canonical zero-padded rendering of that local timestamp with the
zero-offset suffix appended — textually equal to the original timestamp
string with the suffix appended whenever that string is canonically padded
— and no day boundary is crossed.  (`strptime` also accepts non-padded
timestamps, for which the rendering differs textually from the original
string; see the counterexample.) -/
theorem spec_C9 (db : ZoneDB) (idx : Nat) (e : RawWorkoutEntry) (z : Zone)
    (r : WorkoutRecord)
    (hz : db (e.tz.getD vacant) = some z)
    (hz0 : ∀ t, z.offAt t = 0)
    (h : processWorkoutEntry db idx e = .ok r) :
    ∃ local_dt,
      parseTs (e.timestamp.getD vacant) = some local_dt ∧
      r.timestamp_utc = local_dt ∧
      renderUtcSeconds r.timestamp_utc = formatTs local_dt ++ "+00:00" ∧
      (formatTs local_dt = r.original_timestamp →
        renderUtcSeconds r.timestamp_utc = r.original_timestamp ++ "+00:00") ∧
      r.crossed_day_boundary = false := by
  obtain ⟨z2, dt, hv, hz2, hp, h1, h2, rfl⟩ := processWorkoutEntry_ok db idx e r h
  have hzz : z = z2 := by
    rw [hz] at hz2
    exact Option.some.inj hz2
  subst hzz
  have hval := parseTs_valid _ dt hp
  have hid : fromSecs (toSecs dt - z.offAt dt) = dt := by
    rw [hz0 dt, sub_zero]
    exact fromSecs_toSecs dt hval
  refine ⟨dt, hp, hid, ?_, ?_, ?_⟩
  · show renderUtcSeconds (fromSecs (toSecs dt - z.offAt dt)) =
      formatTs dt ++ "+00:00"
    rw [hid]
    rfl
  · intro hcan
    show renderUtcSeconds (fromSecs (toSecs dt - z.offAt dt)) =
      e.timestamp.getD vacant ++ "+00:00"
    rw [hid]
    unfold renderUtcSeconds
    rw [hcan]
  · show decide (dt.date ≠ (fromSecs (toSecs dt - z.offAt dt)).date) = false
    rw [hid]
    simp

/-- Workout entry logged directly in UTC with a canonically padded
timestamp. -/
def exEntryUTC : RawWorkoutEntry :=
  ⟨some "w2", some "2023-10-01 08:30:00", some "UTC", some "walk",
    some 30, some 150⟩

/-- Normalized record of the canonically padded UTC workout entry. -/
def exRecordUTC : WorkoutRecord :=
  ⟨"w2", ⟨⟨2023, 10, 1⟩, 8, 30, 0⟩, ⟨2023, 10, 1⟩, "2023-10-01 08:30:00",
    "UTC", "walk", 30, 150, false⟩

/-- Closed instance of the C9 theorem at a canonically padded UTC workout
entry. -/
theorem spec_C9_witness :
    ∃ local_dt,
      parseTs (exEntryUTC.timestamp.getD vacant) = some local_dt ∧
      exRecordUTC.timestamp_utc = local_dt ∧
      renderUtcSeconds exRecordUTC.timestamp_utc =
        formatTs local_dt ++ "+00:00" ∧
      (formatTs local_dt = exRecordUTC.original_timestamp →
        renderUtcSeconds exRecordUTC.timestamp_utc =
          exRecordUTC.original_timestamp ++ "+00:00") ∧
      exRecordUTC.crossed_day_boundary = false :=
  spec_C9 exampleDB 0 exEntryUTC zoneUTC exRecordUTC (by rfl) (fun _ => rfl)
    (by rfl)

/-- C10: the JSON generator is partial on an empty merged mapping — merging
empty inputs yields the empty mapping, on which the date-range computation
fails (the embedding returns `none`) — while any non-empty mapping produces
output, so a non-empty merge is the unstated precondition. -/
theorem spec_C10 (w : List WorkoutRecord) (c : CorrResults) :
    merge_by_day [] [] = [] ∧
    generate_json_output [] w c = none ∧
    (∀ m : List (Date × DailyAggregate), m ≠ [] →
      (generate_json_output m w c).isSome = true) := by
  refine ⟨rfl, rfl, ?_⟩
  intro m hm
  cases m with
  | nil => exact absurd rfl hm
  | cons p ps => rfl

/-- Closed instance of the C10 theorem on a one-day merged mapping. -/
theorem spec_C10_witness :
    (generate_json_output (merge_by_day [] [exRecordLA]) [] emptyCorr).isSome
      = true :=
  (spec_C10 [] emptyCorr).2.2 (merge_by_day [] [exRecordLA]) (by decide)

end PHA
